import Mathlib

/-!
# Tempesta memory reservation (`mm/tempesta_mm.c`)

A shallow embedding of the boot-time memory reservation of Tempesta DB:

* `tempesta_setup_pages` : the `tempesta_dbmem=` parameter handler, which
  computes the per-node size `dbmem`;
* `tempesta_reserve_pages` : the physically contiguous per-node reservation
  with its rollback path;
* `tempesta_reserve_vmpages` : the vmalloc fallback with its rollback path;
* `tempesta_get_mapping` : the exported lookup.

Machine integers are natural numbers reduced modulo `2 ^ 64` wherever the C
expression can wrap.  The allocators are oracles: a function gives, for the
arguments of a call, the pointer the call returns (`0` is `NULL`).  Each pass
calls an allocator at most once per node, so a function of the node id covers
every pattern of successes and failures.
-/

set_option linter.unusedVariables false

namespace Tempesta

/-! ## Constants -/

/-- The modulus of `unsigned long` arithmetic on the 64-bit kernel. -/
@[irreducible] def ULONG_MOD : Nat := 2 ^ 64

/-- Modelled from the spec: `HPAGE_SIZE` is declared in an architecture header
outside this file; the spec fixes the page granularity at 2MB, which is also
what the comments on `MAX_MEMSZ` (128GB) and `MIN_MEMSZ` (32MB) imply. -/
@[irreducible] def HPAGE_SIZE : Nat := 2 ^ 21

/-- Modelled from the spec: `PAGE_SIZE`, the base page size, is declared in an
architecture header outside this file; 4096 bytes. -/
@[irreducible] def PAGE_SIZE : Nat := 4096

/-- Modelled from the spec: `SZ_1M` of `linux/sizes.h`, one megabyte. -/
@[irreducible] def SZ_1M : Nat := 0x00100000

/-- Modelled from the spec: `ENOMEM` of the errno headers. -/
def ENOMEM : Int := 12

/-- `#define MAX_MEMSZ 65536 * HPAGE_SIZE` (128GB per node). -/
@[irreducible] def MAX_MEMSZ : Nat := 65536 * HPAGE_SIZE

/-- `#define MIN_MEMSZ 16 * HPAGE_SIZE` (32MB per node). -/
@[irreducible] def MIN_MEMSZ : Nat := 16 * HPAGE_SIZE

/-- `#define DEFAULT_MEMSZ 256 * HPAGE_SIZE` (512MB), the initial value of the
static `dbmem`. -/
@[irreducible] def DEFAULT_MEMSZ : Nat := 256 * HPAGE_SIZE

/-! ## Size configuration -/

/-- Modelled from the spec: the `round_up(x, y)` macro lives in a kernel header
outside this file.  It rounds `x` up to the next multiple of the power of two
`y`; the kernel computes it in the `unsigned long` type of `x` as
`((x - 1) | (y - 1)) + 1`, so the decrements and the increment wrap. -/
def round_up (x y : Nat) : Nat :=
  ((((x + ULONG_MOD - 1) % ULONG_MOD) ||| ((y + ULONG_MOD - 1) % ULONG_MOD)) + 1) % ULONG_MOD

/-- The helper `__dbsize_mb`: a size in whole megabytes, `0` below one. -/
def __dbsize_mb (size : Nat) : Nat :=
  if size ≥ SZ_1M then size / SZ_1M else 0

/-- One `pr_err("Tempesta: bad dbmem value %lu(%luM), must be [%luM:%luM]")`
record, with its four arguments. -/
structure BadDbmem where
  raw : Nat
  mb : Nat
  min : Nat
  max : Nat
deriving DecidableEq, Repr

/-- What `tempesta_setup_pages` leaves behind: the static `dbmem`, the
diagnostics printed (oldest first) and the return value. -/
structure SetupResult where
  dbmem : Nat
  log : List BadDbmem
  ret : Int
deriving DecidableEq, Repr

/-- The first clamp of `tempesta_setup_pages`: `if (dbmem < MIN_MEMSZ)` prints
the diagnostic `d` and sets `dbmem = MIN_MEMSZ`. -/
def clamp_min (d : BadDbmem) (s : SetupResult) : SetupResult :=
  if s.dbmem < MIN_MEMSZ then ⟨MIN_MEMSZ, s.log ++ [d], s.ret⟩ else s

/-- The second clamp of `tempesta_setup_pages`: `if (dbmem > MAX_MEMSZ)` prints
the diagnostic `d` and sets `dbmem = MAX_MEMSZ`. -/
def clamp_max (d : BadDbmem) (s : SetupResult) : SetupResult :=
  if s.dbmem > MAX_MEMSZ then ⟨MAX_MEMSZ, s.log ++ [d], s.ret⟩ else s

/-- The arguments both `pr_err` calls of `tempesta_setup_pages` print: the
parsed value, the same in megabytes, and the locals `min` and `max`. -/
def bad_dbmem (nr_online_nodes raw_dbmem : Nat) : BadDbmem :=
  ⟨raw_dbmem, __dbsize_mb raw_dbmem,
    (__dbsize_mb MIN_MEMSZ * nr_online_nodes) % ULONG_MOD,
    (__dbsize_mb MAX_MEMSZ * nr_online_nodes) % ULONG_MOD⟩

/-- The handler `tempesta_setup_pages(str)`: `dbmem` is set to the rounded
per-node share, then the two clamps run in turn, and `1` is returned.
`raw_dbmem` is what `memparse(str, NULL)` returned (an `unsigned long`),
`nr_online_nodes` the kernel variable of that name (at least 1; the division
traps on 0). -/
def tempesta_setup_pages (nr_online_nodes raw_dbmem : Nat) : SetupResult :=
  clamp_max (bad_dbmem nr_online_nodes raw_dbmem)
    (clamp_min (bad_dbmem nr_online_nodes raw_dbmem)
      ⟨round_up (raw_dbmem / nr_online_nodes) HPAGE_SIZE, [], 1⟩)

/-- The invariant of the size configuration: within the bounds and a multiple
of the huge page size. -/
def DbmemValid (dbmem : Nat) : Prop :=
  MIN_MEMSZ ≤ dbmem ∧ dbmem ≤ MAX_MEMSZ ∧ HPAGE_SIZE ∣ dbmem

instance (dbmem : Nat) : Decidable (DbmemValid dbmem) := by
  unfold DbmemValid; exact inferInstance

/-! ## The mapping table -/

/-- Modelled from the spec: the type `TempestaMapping` is declared in
`linux/tempesta.h`, outside this file; its two fields are the ones this file
reads and writes, both `unsigned long`. -/
structure TempestaMapping where
  addr : Nat
  pages : Nat
deriving DecidableEq, Repr

/-- The static array `map[MAX_NUMNODES]` as C addresses it: `map i` is what
the expression `map[i]` denotes.  Indices `0 .. MAX_NUMNODES - 1` are the array
itself; C makes no range check, so any other index stands for the storage that
happens to lie at that offset from the array. -/
abbrev Table := Int → TempestaMapping

/-- The assignment `map[nid].addr = addr`. -/
def set_addr (map : Table) (nid : Int) (addr : Nat) : Table :=
  fun i => if i = nid then ⟨addr, (map i).pages⟩ else map i

/-- The assignment `map[nid].pages = pages`. -/
def set_pages (map : Table) (nid : Int) (pages : Nat) : Table :=
  fun i => if i = nid then ⟨(map i).addr, pages⟩ else map i

/-- The call `memset(map, 0, sizeof(map))`: it clears the `MAX_NUMNODES`
entries of the array and nothing else. -/
def memset_map (MAX_NUMNODES : Int) (map : Table) : Table :=
  fun i => if 0 ≤ i ∧ i < MAX_NUMNODES then ⟨0, 0⟩ else map i

/-- Every entry of the array is zero, as in the zero-initialised static. -/
def TableZero (MAX_NUMNODES : Int) (map : Table) : Prop :=
  ∀ i : Int, 0 ≤ i → i < MAX_NUMNODES → map i = ⟨0, 0⟩

/-- The number of the listed nodes whose entry has a non-zero `addr`. -/
def populated (nodes : List Int) (map : Table) : Nat :=
  nodes.countP (fun nid => (map nid).addr != 0)

/-! ## The kernel around the file -/

/-- The parts of the kernel the reservation code calls into or reads.
`online` is the set bits of `node_states[N_ONLINE]` in the increasing order in
which `for_each_online_node` visits them; the kernel keeps `nr_online_nodes`
equal to their number.  The three functions are oracles for the external
routines: the pointer returned for the given arguments, `0` for `NULL`
(`memblock_alloc_try_nid_raw` is given size, alignment and node; its address
limits are the constants `MEMBLOCK_LOW_LIMIT` and `MEMBLOCK_ALLOC_ANYWHERE`). -/
structure Kernel where
  MAX_NUMNODES : Int
  online : List Int
  memblock_alloc_try_nid_raw : Nat → Nat → Int → Nat
  virt_to_phys : Nat → Nat
  vzalloc_node : Nat → Int → Nat

/-- The kernel variable `nr_online_nodes`. -/
def Kernel.nr_online_nodes (k : Kernel) : Int := k.online.length

/-- The online nodes are distinct, increasing and within the node table. -/
def Kernel.OnlineOk (k : Kernel) : Prop :=
  k.online.Pairwise (fun a b => a < b) ∧ ∀ nid ∈ k.online, 0 ≤ nid ∧ nid < k.MAX_NUMNODES

/-- A call into an allocator, with its arguments. -/
inductive Call where
  | memblock_alloc_try_nid_raw (size align : Nat) (nid : Int)
  | memblock_free (base size : Nat)
  | vzalloc_node (size : Nat) (nid : Int)
  | vfree (addr : Nat)
deriving DecidableEq, Repr

/-- A message printed by the reservation passes, with its arguments. -/
inductive Msg where
  | cant_reserve (mb : Nat) (nid : Int)
  | reserved (mb addr : Nat) (nid : Int)
  | allocate_vmalloc (mb : Nat) (nid : Int)
  | cannot_vmalloc (bytes : Nat) (nid : Int)
deriving DecidableEq, Repr

/-- The state at the exit of a `for_each_online_node` allocation loop: `err` is
the node at which the loop left through `goto err` (`none` when it ran to its
end), then the table, the allocator calls made and the messages printed. -/
structure LoopResult where
  err : Option Int
  map : Table
  calls : List Call
  log : List Msg

/-- The state a reservation pass leaves: `bug` tells that `BUG_ON` fired. -/
structure PassResult where
  bug : Bool
  map : Table
  calls : List Call
  log : List Msg

/-! ## `tempesta_reserve_pages` -/

/-- The first loop of `tempesta_reserve_pages` over the nodes still to visit. -/
def reserve_loop (alloc : Nat → Nat → Int → Nat) (dbmem : Nat) : List Int → Table → LoopResult
  | [], map => ⟨none, map, [], []⟩
  | nid :: rest, map =>
    let addr := alloc dbmem HPAGE_SIZE nid
    let c := Call.memblock_alloc_try_nid_raw dbmem HPAGE_SIZE nid
    if addr = 0 then
      ⟨some nid, map, [c], [Msg.cant_reserve (__dbsize_mb dbmem) nid]⟩
    else
      let r := reserve_loop alloc dbmem rest
        (set_pages (set_addr map nid addr) nid (dbmem / PAGE_SIZE))
      ⟨r.err, r.map, c :: r.calls, Msg.reserved (__dbsize_mb dbmem) addr nid :: r.log⟩

/-- The loop under the label `err` of `tempesta_reserve_pages`: the
`memblock_free` calls it makes, in order. -/
def release_loop (virt_to_phys : Nat → Nat) : List Int → Table → List Call
  | [], _ => []
  | nid :: rest, map =>
    if (map nid).addr = 0 then
      release_loop virt_to_phys rest map
    else
      Call.memblock_free (virt_to_phys (map nid).addr) (((map nid).pages * PAGE_SIZE) % ULONG_MOD)
        :: release_loop virt_to_phys rest map

/-- The function `tempesta_reserve_pages`, with the static `dbmem` and `map`
passed in and the new table returned. -/
def tempesta_reserve_pages (k : Kernel) (dbmem : Nat) (map : Table) : PassResult :=
  let r := reserve_loop k.memblock_alloc_try_nid_raw dbmem k.online map
  match r.err with
  | none => ⟨false, r.map, r.calls, r.log⟩
  | some _ =>
    ⟨false, memset_map k.MAX_NUMNODES r.map,
      r.calls ++ release_loop k.virt_to_phys k.online r.map, r.log⟩

/-! ## `tempesta_reserve_vmpages` -/

/-- The counting loop `maps += !!map[nid].addr`; the `int` counter sees at most
`MAX_NUMNODES` nodes and does not wrap. -/
def count_maps : List Int → Table → Int
  | [], _ => 0
  | nid :: rest, map => (if (map nid).addr = 0 then 0 else 1) + count_maps rest map

/-- The allocation loop of `tempesta_reserve_vmpages`: the address is stored
before it is tested. -/
def vzalloc_loop (vzalloc : Nat → Int → Nat) (dbmem : Nat) : List Int → Table → LoopResult
  | [], map => ⟨none, map, [], []⟩
  | nid :: rest, map =>
    let m := Msg.allocate_vmalloc (__dbsize_mb dbmem) nid
    let c := Call.vzalloc_node dbmem nid
    let map1 := set_addr map nid (vzalloc dbmem nid)
    if (map1 nid).addr = 0 then
      ⟨some nid, map1, [c], [m]⟩
    else
      let r := vzalloc_loop vzalloc dbmem rest (set_pages map1 nid (dbmem / PAGE_SIZE))
      ⟨r.err, r.map, c :: r.calls, m :: r.log⟩

/-- The loop under the label `err` of `tempesta_reserve_vmpages`: the `vfree`
calls it makes, in order. -/
def vfree_loop : List Int → Table → List Call
  | [], _ => []
  | nid :: rest, map =>
    if (map nid).addr = 0 then vfree_loop rest map
    else Call.vfree (map nid).addr :: vfree_loop rest map

/-- The function `tempesta_reserve_vmpages`.  When `BUG_ON` fires the kernel
stops there: the result has `bug` set and the state of that moment. -/
def tempesta_reserve_vmpages (k : Kernel) (dbmem : Nat) (map : Table) : PassResult :=
  let maps := count_maps k.online map
  if maps ≠ 0 ∧ maps < k.nr_online_nodes then
    ⟨true, map, [], []⟩
  else if maps = k.nr_online_nodes then
    ⟨false, map, [], []⟩
  else
    let r := vzalloc_loop k.vzalloc_node dbmem k.online map
    match r.err with
    | none => ⟨false, r.map, r.calls, r.log⟩
    | some nid =>
      ⟨false, memset_map k.MAX_NUMNODES r.map,
        r.calls ++ vfree_loop k.online r.map, r.log ++ [Msg.cannot_vmalloc dbmem nid]⟩

/-! ## `tempesta_get_mapping` -/

/-- What a call of `tempesta_get_mapping` leaves: the return value, the
pointer held by `*tm` (the index of the entry it points at, `none` for a
pointer that is not into `map`) and the table. -/
structure GetResult where
  ret : Int
  tm : Option Int
  map : Table

/-- The function `tempesta_get_mapping(nid, tm)`; the argument `tm` is what
`*tm` held before the call. -/
def tempesta_get_mapping (map : Table) (nid : Int) (tm : Option Int) : GetResult :=
  if (map nid).addr = 0 then ⟨-ENOMEM, tm, map⟩ else ⟨0, some nid, map⟩

/-- The call `tempesta_get_mapping(nid, tm)` on a machine where, outside the
array, storage exists only at the offsets for which `mapped` holds.  The read
of `map[nid]` at an offset outside the array with no storage faults and the
call does not return (`none`); within the array, and where storage is mapped,
the call is `tempesta_get_mapping` on what is stored there. -/
def tempesta_get_mapping_mapped (MAX_NUMNODES : Int) (mapped : Int → Bool) (map : Table)
    (nid : Int) (tm : Option Int) : Option GetResult :=
  if (0 ≤ nid ∧ nid < MAX_NUMNODES) ∨ mapped nid = true then
    some (tempesta_get_mapping map nid tm)
  else
    none

/-! ## Auxiliary table -/

/-- The table in which each of `nodes` holds address `f nid` and `pages`, the
other entries being those of `map`: what an allocation loop has stored once it
has succeeded on `nodes`. -/
def filled (f : Int → Nat) (pages : Nat) (nodes : List Int) (map : Table) : Table :=
  fun i => if i ∈ nodes then ⟨f i, pages⟩ else map i

/-- The addresses handed back by a sequence of calls, in order: the base of
each `memblock_free` and the pointer of each `vfree`. -/
def released : List Call → List Nat
  | [] => []
  | Call.memblock_free base _ :: rest => base :: released rest
  | Call.vfree addr :: rest => addr :: released rest
  | Call.memblock_alloc_try_nid_raw _ _ _ :: rest => released rest
  | Call.vzalloc_node _ _ :: rest => released rest

/-! ## Sample inputs -/

/-- A machine with four online nodes out of 64 on which the physical
reservation fails at node 2 and the vmalloc fallback fails at node 3. -/
def sampleKernel : Kernel where
  MAX_NUMNODES := 64
  online := [0, 1, 2, 3]
  memblock_alloc_try_nid_raw := fun _ _ nid => if nid = 2 then 0 else 0x40000000 * (nid.toNat + 1)
  virt_to_phys := fun a => a
  vzalloc_node := fun _ nid => if nid = 3 then 0 else 0x80000000 * (nid.toNat + 1)

/-- A machine with four online nodes out of 64 on which the physical
reservation fails at node 2 and the vmalloc fallback succeeds everywhere. -/
def fallbackKernel : Kernel where
  MAX_NUMNODES := 64
  online := [0, 1, 2, 3]
  memblock_alloc_try_nid_raw := fun _ _ nid => if nid = 2 then 0 else 0x40000000 * (nid.toNat + 1)
  virt_to_phys := fun a => a
  vzalloc_node := fun _ nid => 0x80000000 * (nid.toNat + 1)

/-- The zero-initialised table. -/
def zeroTable : Table := fun _ => ⟨0, 0⟩

/-- A table with every entry of the four sample nodes populated. -/
def fullTable : Table := fun i => ⟨0x40000000 * (i.toNat + 1), DEFAULT_MEMSZ / PAGE_SIZE⟩

/-- An empty table with a non-zero word in the storage just before it. -/
def strayTable : Table := fun i => if i = -1 then ⟨0x1000, 1⟩ else ⟨0, 0⟩

/-- A machine with four online nodes out of 64 on which every physical
reservation succeeds. -/
def goodKernel : Kernel where
  MAX_NUMNODES := 64
  online := [0, 1, 2, 3]
  memblock_alloc_try_nid_raw := fun _ _ nid => 0x40000000 * (nid.toNat + 1)
  virt_to_phys := fun a => a
  vzalloc_node := fun _ _ => 0

/-- A table in which, of the four sample nodes, only node 1 is populated. -/
def partialTable : Table :=
  fun i => if i = 1 then ⟨0x80000000, DEFAULT_MEMSZ / PAGE_SIZE⟩ else ⟨0, 0⟩

/-! ## The constants as numerals -/

theorem ULONG_MOD_eq : ULONG_MOD = 18446744073709551616 := by unfold ULONG_MOD; rfl

theorem HPAGE_SIZE_eq : HPAGE_SIZE = 2097152 := by unfold HPAGE_SIZE; rfl

theorem PAGE_SIZE_eq : PAGE_SIZE = 4096 := by unfold PAGE_SIZE; rfl

theorem MIN_MEMSZ_eq : MIN_MEMSZ = 33554432 := by unfold MIN_MEMSZ; rw [HPAGE_SIZE_eq]

theorem MAX_MEMSZ_eq : MAX_MEMSZ = 137438953472 := by unfold MAX_MEMSZ; rw [HPAGE_SIZE_eq]

theorem DEFAULT_MEMSZ_eq : DEFAULT_MEMSZ = 536870912 := by
  unfold DEFAULT_MEMSZ; rw [HPAGE_SIZE_eq]

theorem MIN_le_MAX : MIN_MEMSZ ≤ MAX_MEMSZ := by
  rw [MIN_MEMSZ_eq, MAX_MEMSZ_eq]; decide

theorem HPAGE_SIZE_pos : 0 < HPAGE_SIZE := by rw [HPAGE_SIZE_eq]; decide

theorem HPAGE_SIZE_dvd_ULONG_MOD : HPAGE_SIZE ∣ ULONG_MOD := by
  rw [HPAGE_SIZE_eq, ULONG_MOD_eq]; exact ⟨8796093022208, by norm_num⟩

theorem DbmemValid_MIN : DbmemValid MIN_MEMSZ := by
  unfold DbmemValid; rw [MIN_MEMSZ_eq, MAX_MEMSZ_eq, HPAGE_SIZE_eq]
  exact ⟨by decide, by decide, ⟨16, by norm_num⟩⟩

theorem DbmemValid_MAX : DbmemValid MAX_MEMSZ := by
  unfold DbmemValid; rw [MIN_MEMSZ_eq, MAX_MEMSZ_eq, HPAGE_SIZE_eq]
  exact ⟨by decide, by decide, ⟨65536, by norm_num⟩⟩

theorem DbmemValid_DEFAULT : DbmemValid DEFAULT_MEMSZ := by
  unfold DbmemValid; rw [MIN_MEMSZ_eq, MAX_MEMSZ_eq, HPAGE_SIZE_eq, DEFAULT_MEMSZ_eq]
  exact ⟨by decide, by decide, ⟨256, by norm_num⟩⟩

/-! ## Arithmetic of `round_up` -/

theorem lor_low_mask (a k : Nat) : a ||| (2 ^ k - 1) = 2 ^ k * (a / 2 ^ k) + (2 ^ k - 1) := by
  have hlt : 2 ^ k - 1 < 2 ^ k := Nat.sub_lt (Nat.two_pow_pos k) Nat.one_pos
  apply Nat.eq_of_testBit_eq
  intro j
  rw [Nat.testBit_or, Nat.testBit_two_pow_sub_one, Nat.testBit_mul_pow_two_add _ hlt]
  by_cases h : j < k
  · simp [h]
  · have hj : k + (j - k) = j := by omega
    simp only [h, decide_False, Bool.or_false, if_false]
    rw [← Nat.shiftRight_eq_div_pow, Nat.testBit_shiftRight, hj]

/-- On a positive `unsigned long` the model of `round_up` is the usual rounding
up to a multiple of `HPAGE_SIZE`, reduced modulo `2 ^ 64`. -/
theorem round_up_pos (x : Nat) (h0 : 0 < x) (hx : x < ULONG_MOD) :
    round_up x HPAGE_SIZE = (HPAGE_SIZE * ((x - 1) / HPAGE_SIZE + 1)) % ULONG_MOD := by
  unfold round_up
  have h1 : (x + ULONG_MOD - 1) % ULONG_MOD = x - 1 := by
    have : x + ULONG_MOD - 1 = (x - 1) + ULONG_MOD := by omega
    rw [this, Nat.add_mod_right, Nat.mod_eq_of_lt (by omega)]
  have h2 : (x - 1) ||| (HPAGE_SIZE - 1)
      = HPAGE_SIZE * ((x - 1) / HPAGE_SIZE) + (HPAGE_SIZE - 1) := by
    have h := lor_low_mask (x - 1) 21
    have e : HPAGE_SIZE = 2 ^ 21 := by unfold HPAGE_SIZE; rfl
    rw [e]; exact h
  have h3 := HPAGE_SIZE_pos
  have h4 : (HPAGE_SIZE + ULONG_MOD - 1) % ULONG_MOD = HPAGE_SIZE - 1 := by
    rw [HPAGE_SIZE_eq, ULONG_MOD_eq]
  rw [h1, h4, h2, Nat.mul_add, Nat.mul_one, Nat.add_assoc, Nat.sub_add_cancel h3]

theorem round_up_zero : round_up 0 HPAGE_SIZE = 0 := by
  unfold round_up; rw [ULONG_MOD_eq, HPAGE_SIZE_eq]; decide

/-- The value computed by `round_up` is a multiple of `HPAGE_SIZE` for every
`unsigned long`, wrapped or not. -/
theorem round_up_dvd (x : Nat) (hx : x < ULONG_MOD) : HPAGE_SIZE ∣ round_up x HPAGE_SIZE := by
  rcases Nat.eq_zero_or_pos x with h0 | h0
  · subst h0; rw [round_up_zero]; exact dvd_zero _
  · rw [round_up_pos x h0 hx]
    exact (Nat.dvd_mod_iff HPAGE_SIZE_dvd_ULONG_MOD).2 (dvd_mul_right _ _)

/-- Below `2 ^ 64 - HPAGE_SIZE + 1` nothing wraps: `round_up` is the next
multiple of `HPAGE_SIZE`. -/
theorem round_up_no_wrap (x : Nat) (h0 : 0 < x) (hx : x + HPAGE_SIZE ≤ ULONG_MOD) :
    round_up x HPAGE_SIZE = HPAGE_SIZE * ((x - 1) / HPAGE_SIZE + 1) := by
  have hH := HPAGE_SIZE_pos
  rw [round_up_pos x h0 (by omega)]
  apply Nat.mod_eq_of_lt
  have h1 : HPAGE_SIZE * ((x - 1) / HPAGE_SIZE) ≤ x - 1 := Nat.mul_div_le _ _
  rw [Nat.mul_add, Nat.mul_one]
  omega

/-! ## `tempesta_setup_pages` -/

theorem clamp_min_dbmem (d : BadDbmem) (r : Nat) (l : List BadDbmem) (c : Int) :
    (clamp_min d ⟨r, l, c⟩).dbmem = if r < MIN_MEMSZ then MIN_MEMSZ else r := by
  unfold clamp_min; split <;> rfl

theorem clamp_max_dbmem (d : BadDbmem) (s : SetupResult) :
    (clamp_max d s).dbmem = if s.dbmem > MAX_MEMSZ then MAX_MEMSZ else s.dbmem := by
  unfold clamp_max; split <;> rfl

/-- The two clamps, in sequence, as one case distinction on the rounded
value. -/
theorem setup_pages_dbmem (n raw : Nat) :
    (tempesta_setup_pages n raw).dbmem =
      if round_up (raw / n) HPAGE_SIZE < MIN_MEMSZ then MIN_MEMSZ
      else if round_up (raw / n) HPAGE_SIZE > MAX_MEMSZ then MAX_MEMSZ
      else round_up (raw / n) HPAGE_SIZE := by
  have hmm := MIN_le_MAX
  rw [tempesta_setup_pages, clamp_max_dbmem, clamp_min_dbmem]
  generalize round_up (raw / n) HPAGE_SIZE = r
  split_ifs <;> omega

theorem div_lt_ULONG_MOD (n raw : Nat) (hraw : raw < ULONG_MOD) : raw / n < ULONG_MOD :=
  lt_of_le_of_lt (Nat.div_le_self raw n) hraw

/-- C8: for every unsigned 64-bit parsed total and every online node count
`n ≥ 1`, the `dbmem` left by `tempesta_setup_pages` lies between `MIN_MEMSZ`
and `MAX_MEMSZ` and is a multiple of `HPAGE_SIZE`; so does the initial value
`DEFAULT_MEMSZ`. -/
theorem setup_pages_dbmem_valid (n raw : Nat) (hn : 1 ≤ n) (hraw : raw < ULONG_MOD) :
    DbmemValid (tempesta_setup_pages n raw).dbmem ∧ DbmemValid DEFAULT_MEMSZ := by
  refine ⟨?_, DbmemValid_DEFAULT⟩
  have hd := round_up_dvd (raw / n) (div_lt_ULONG_MOD n raw hraw)
  rw [setup_pages_dbmem]
  split_ifs with h1 h2
  · exact DbmemValid_MIN
  · exact DbmemValid_MAX
  · exact ⟨not_lt.1 h1, not_lt.1 h2, hd⟩

theorem setup_pages_dbmem_valid_witness :
    DbmemValid (tempesta_setup_pages 4 2147483648).dbmem ∧ DbmemValid DEFAULT_MEMSZ :=
  setup_pages_dbmem_valid 4 2147483648 (by decide) (by rw [ULONG_MOD_eq]; decide)

/-- C9: for every online node count `n ≥ 1` and every parsed total strictly
below `MIN_MEMSZ * n`, `tempesta_setup_pages` leaves `dbmem = MIN_MEMSZ`. -/
theorem setup_pages_below_min (n raw : Nat) (hn : 1 ≤ n) (hraw : raw < MIN_MEMSZ * n) :
    (tempesta_setup_pages n raw).dbmem = MIN_MEMSZ := by
  have hx : raw / n < MIN_MEMSZ := Nat.div_lt_of_lt_mul (by rwa [Nat.mul_comm] at hraw)
  rw [setup_pages_dbmem]
  rcases Nat.eq_zero_or_pos (raw / n) with h0 | h0
  · rw [h0, round_up_zero, if_pos (by rw [MIN_MEMSZ_eq]; decide)]
  · have hr := round_up_no_wrap (raw / n) h0
      (by rw [MIN_MEMSZ_eq] at hx; rw [HPAGE_SIZE_eq, ULONG_MOD_eq]; omega)
    rw [hr]
    rw [MIN_MEMSZ_eq] at hx ⊢
    rw [MAX_MEMSZ_eq, HPAGE_SIZE_eq]
    split_ifs <;> omega

theorem setup_pages_below_min_witness : (tempesta_setup_pages 4 1048576).dbmem = MIN_MEMSZ :=
  setup_pages_below_min 4 1048576 (by decide) (by rw [MIN_MEMSZ_eq]; decide)

/-- C10 (the code at the failing input): with one online node and a parsed
total of `2 ^ 64 - 1`, which exceeds `MAX_MEMSZ * 1`, the rounding wraps to `0`
and `tempesta_setup_pages` leaves `dbmem = MIN_MEMSZ`, not `MAX_MEMSZ`. -/
theorem setup_pages_wraps_to_min :
    MAX_MEMSZ * 1 < 18446744073709551615 ∧ 18446744073709551615 < ULONG_MOD ∧
    round_up (18446744073709551615 / 1) HPAGE_SIZE = 0 ∧
    (tempesta_setup_pages 1 18446744073709551615).dbmem = MIN_MEMSZ ∧
    (tempesta_setup_pages 1 18446744073709551615).dbmem ≠ MAX_MEMSZ := by
  have hr : round_up (18446744073709551615 / 1) HPAGE_SIZE = 0 := by
    unfold round_up; rw [ULONG_MOD_eq, HPAGE_SIZE_eq]; decide
  have hd : (tempesta_setup_pages 1 18446744073709551615).dbmem = MIN_MEMSZ := by
    rw [setup_pages_dbmem, hr, if_pos (by rw [MIN_MEMSZ_eq]; decide)]
  refine ⟨by rw [MAX_MEMSZ_eq]; decide, by rw [ULONG_MOD_eq]; decide, hr, hd, ?_⟩
  rw [hd, MIN_MEMSZ_eq, MAX_MEMSZ_eq]; decide

/-- Where the rounding does not wrap (always so with two or more online
nodes), a parsed total above `MAX_MEMSZ * n` is clamped to `MAX_MEMSZ`. -/
theorem setup_pages_above_max_no_wrap (n raw : Nat) (hn : 1 ≤ n)
    (hraw : MAX_MEMSZ * n < raw) (hw : raw / n + HPAGE_SIZE ≤ ULONG_MOD) :
    (tempesta_setup_pages n raw).dbmem = MAX_MEMSZ := by
  have hx : MAX_MEMSZ ≤ raw / n :=
    (Nat.le_div_iff_mul_le (by omega)).2 (le_of_lt hraw)
  have h0 : 0 < raw / n := lt_of_lt_of_le (by rw [MAX_MEMSZ_eq]; decide) hx
  rw [setup_pages_dbmem, round_up_no_wrap (raw / n) h0 hw]
  rw [MAX_MEMSZ_eq] at hx ⊢
  rw [MIN_MEMSZ_eq, HPAGE_SIZE_eq]
  split_ifs <;> omega

/-! ## The table operations -/

theorem set_pages_set_addr (map : Table) (nid : Int) (a p : Nat) :
    set_pages (set_addr map nid a) nid p = fun i => if i = nid then ⟨a, p⟩ else map i := by
  funext i
  by_cases h : i = nid
  · simp [set_pages, set_addr, h]
  · simp [set_pages, set_addr, h]

theorem filled_nil (f : Int → Nat) (pg : Nat) (map : Table) : filled f pg [] map = map := by
  funext i; simp [filled]

theorem filled_cons (f : Int → Nat) (pg : Nat) (p : Int) (l : List Int) (map : Table) :
    filled f pg l (fun i => if i = p then ⟨f p, pg⟩ else map i) = filled f pg (p :: l) map := by
  funext i
  by_cases h1 : i ∈ l
  · simp [filled, h1]
  · by_cases h2 : i = p
    · subst h2; simp [filled, h1]
    · simp [filled, h1, h2]

theorem memset_map_zero (n : Int) (map : Table) : TableZero n (memset_map n map) := by
  intro i h0 h1
  simp [memset_map, h0, h1]

theorem populated_eq_length (l : List Int) (map : Table)
    (h : ∀ nid ∈ l, (map nid).addr ≠ 0) : populated l map = l.length := by
  unfold populated
  rw [List.countP_eq_length]
  intro nid hn
  simpa using h nid hn

theorem populated_eq_zero (l : List Int) (map : Table)
    (h : ∀ nid ∈ l, (map nid).addr = 0) : populated l map = 0 := by
  unfold populated
  rw [List.countP_eq_zero]
  intro nid hn
  simpa using h nid hn

/-- The counting loop of `tempesta_reserve_vmpages` computes the number of
populated online entries. -/
theorem count_maps_eq_populated (l : List Int) (map : Table) :
    count_maps l map = (populated l map : Int) := by
  induction l with
  | nil => simp [count_maps, populated]
  | cons nid rest ih =>
    unfold populated at ih ⊢
    by_cases h : (map nid).addr = 0
    · simp [count_maps, ih, h]
    · simp [count_maps, ih, h]; ring

theorem tableZero_online (k : Kernel) (map : Table) (hok : k.OnlineOk)
    (hz : TableZero k.MAX_NUMNODES map) : ∀ nid ∈ k.online, (map nid).addr = 0 := by
  intro nid hn
  have hr := hok.2 nid hn
  rw [hz nid hr.1 hr.2]

/-! ## `tempesta_reserve_pages` -/

/-- While the allocator succeeds the first loop stores the regions and goes
on: after a prefix `pre` of successes the loop continues on the rest from the
table filled for `pre`. -/
theorem reserve_loop_append (alloc : Nat → Nat → Int → Nat) (dbmem : Nat) (rest : List Int) :
    ∀ (pre : List Int) (map : Table), (∀ p ∈ pre, alloc dbmem HPAGE_SIZE p ≠ 0) →
      (reserve_loop alloc dbmem (pre ++ rest) map).err =
        (reserve_loop alloc dbmem rest
          (filled (alloc dbmem HPAGE_SIZE) (dbmem / PAGE_SIZE) pre map)).err ∧
      (reserve_loop alloc dbmem (pre ++ rest) map).map =
        (reserve_loop alloc dbmem rest
          (filled (alloc dbmem HPAGE_SIZE) (dbmem / PAGE_SIZE) pre map)).map ∧
      (reserve_loop alloc dbmem (pre ++ rest) map).calls =
        pre.map (fun p => Call.memblock_alloc_try_nid_raw dbmem HPAGE_SIZE p) ++
        (reserve_loop alloc dbmem rest
          (filled (alloc dbmem HPAGE_SIZE) (dbmem / PAGE_SIZE) pre map)).calls := by
  intro pre
  induction pre with
  | nil =>
    intro map _
    rw [filled_nil]
    simp
  | cons p pre ih =>
    intro map h
    have hp : alloc dbmem HPAGE_SIZE p ≠ 0 := h p (List.mem_cons_self _ _)
    have hrest : ∀ q ∈ pre, alloc dbmem HPAGE_SIZE q ≠ 0 :=
      fun q hq => h q (List.mem_cons_of_mem _ hq)
    have ih1 := ih (set_pages (set_addr map p (alloc dbmem HPAGE_SIZE p)) p (dbmem / PAGE_SIZE))
      hrest
    rw [set_pages_set_addr, filled_cons] at ih1
    rw [List.cons_append]
    simp only [reserve_loop, hp, if_false, List.map_cons, List.cons_append]
    rw [set_pages_set_addr]
    exact ⟨ih1.1, ih1.2.1, by rw [ih1.2.2]⟩

/-- When the allocator succeeds on every node the first loop runs to its end
and leaves the table filled for all of them. -/
theorem reserve_loop_all (alloc : Nat → Nat → Int → Nat) (dbmem : Nat) (l : List Int)
    (map : Table) (h : ∀ p ∈ l, alloc dbmem HPAGE_SIZE p ≠ 0) :
    (reserve_loop alloc dbmem l map).err = none ∧
    (reserve_loop alloc dbmem l map).map =
      filled (alloc dbmem HPAGE_SIZE) (dbmem / PAGE_SIZE) l map ∧
    (reserve_loop alloc dbmem l map).calls =
      l.map (fun p => Call.memblock_alloc_try_nid_raw dbmem HPAGE_SIZE p) := by
  have h1 := reserve_loop_append alloc dbmem [] l map h
  rw [List.append_nil] at h1
  simp only [reserve_loop, List.append_nil] at h1
  exact h1

/-- When the allocator first fails at `nid`, after the nodes `pre`, the first
loop leaves through `goto err` there: the table is filled for `pre` only and
no call is made for a later node. -/
theorem reserve_loop_fail (alloc : Nat → Nat → Int → Nat) (dbmem : Nat) (pre post : List Int)
    (nid : Int) (map : Table) (hpre : ∀ p ∈ pre, alloc dbmem HPAGE_SIZE p ≠ 0)
    (hfail : alloc dbmem HPAGE_SIZE nid = 0) :
    (reserve_loop alloc dbmem (pre ++ nid :: post) map).err = some nid ∧
    (reserve_loop alloc dbmem (pre ++ nid :: post) map).map =
      filled (alloc dbmem HPAGE_SIZE) (dbmem / PAGE_SIZE) pre map ∧
    (reserve_loop alloc dbmem (pre ++ nid :: post) map).calls =
      pre.map (fun p => Call.memblock_alloc_try_nid_raw dbmem HPAGE_SIZE p) ++
        [Call.memblock_alloc_try_nid_raw dbmem HPAGE_SIZE nid] := by
  have h1 := reserve_loop_append alloc dbmem (nid :: post) pre map hpre
  simp only [reserve_loop, hfail, if_true] at h1
  exact h1

/-- Every list of nodes either has no failing node or splits at the first
one. -/
theorem first_failure (f : Int → Nat) (l : List Int) :
    (∀ p ∈ l, f p ≠ 0) ∨
    ∃ pre nid post, l = pre ++ nid :: post ∧ (∀ p ∈ pre, f p ≠ 0) ∧ f nid = 0 := by
  induction l with
  | nil => left; intro p hp; cases hp
  | cons a l ih =>
    by_cases ha : f a = 0
    · right
      refine ⟨[], a, l, rfl, ?_, ha⟩
      intro p hp
      exact absurd hp (List.not_mem_nil p)
    · rcases ih with h | ⟨pre, nid, post, e, hp, hf⟩
      · left
        intro p hp
        rcases List.mem_cons.1 hp with rfl | hp
        · exact ha
        · exact h p hp
      · right
        refine ⟨a :: pre, nid, post, by rw [e]; rfl, ?_, hf⟩
        intro p hp'
        rcases List.mem_cons.1 hp' with rfl | hp'
        · exact ha
        · exact hp p hp'

/-- The `memblock_free` calls of the rollback loop: one for each visited node
whose entry is populated, in the order of the visit. -/
theorem release_loop_eq (v2p : Nat → Nat) (l : List Int) (map : Table) :
    release_loop v2p l map =
      (l.filter (fun i => (map i).addr != 0)).map
        (fun i => Call.memblock_free (v2p (map i).addr) (((map i).pages * PAGE_SIZE) % ULONG_MOD)) := by
  induction l with
  | nil => rfl
  | cons a l ih =>
    by_cases h : (map a).addr = 0
    · simp [release_loop, h, ih]
    · simp [release_loop, h, ih]

theorem PAGE_SIZE_dvd_HPAGE_SIZE : PAGE_SIZE ∣ HPAGE_SIZE := by
  rw [PAGE_SIZE_eq, HPAGE_SIZE_eq]; exact ⟨512, by norm_num⟩

/-- A valid `dbmem` is a whole number of pages that fits an `unsigned long`:
the byte length `pages * PAGE_SIZE` computed at the release is `dbmem`. -/
theorem pages_bytes (dbmem : Nat) (hd : DbmemValid dbmem) :
    (dbmem / PAGE_SIZE * PAGE_SIZE) % ULONG_MOD = dbmem := by
  have h1 : PAGE_SIZE ∣ dbmem := dvd_trans PAGE_SIZE_dvd_HPAGE_SIZE hd.2.2
  rw [Nat.div_mul_cancel h1]
  apply Nat.mod_eq_of_lt
  have h2 := hd.2.1
  rw [MAX_MEMSZ_eq] at h2
  rw [ULONG_MOD_eq]
  omega

/-- The rollback loop run over `pre ++ rest` on a table that is filled for
`pre` with non-zero addresses and zero on `rest` releases exactly the regions
of `pre`. -/
theorem release_loop_filled (v2p : Nat → Nat) (f : Int → Nat) (pg : Nat) (pre rest : List Int)
    (map : Table) (hpre : ∀ p ∈ pre, f p ≠ 0)
    (hrest : ∀ q ∈ rest, q ∉ pre ∧ (map q).addr = 0) :
    release_loop v2p (pre ++ rest) (filled f pg pre map) =
      pre.map (fun p => Call.memblock_free (v2p (f p)) ((pg * PAGE_SIZE) % ULONG_MOD)) := by
  rw [release_loop_eq, List.filter_append]
  have h1 : rest.filter (fun i => (filled f pg pre map i).addr != 0) = [] := by
    rw [List.filter_eq_nil_iff]
    intro q hq
    have := hrest q hq
    simp [filled, this.1, this.2]
  have h2 : pre.filter (fun i => (filled f pg pre map i).addr != 0) = pre := by
    rw [List.filter_eq_self]
    intro p hp
    simpa [filled, hp] using hpre p hp
  rw [h1, h2, List.append_nil]
  apply List.map_congr_left
  intro p hp
  simp [filled, hp]

/-- The table `tempesta_reserve_pages` leaves when the allocator succeeds on
every online node. -/
theorem reserve_pages_all (k : Kernel) (dbmem : Nat) (map : Table)
    (h : ∀ p ∈ k.online, k.memblock_alloc_try_nid_raw dbmem HPAGE_SIZE p ≠ 0) :
    (tempesta_reserve_pages k dbmem map).map =
      filled (k.memblock_alloc_try_nid_raw dbmem HPAGE_SIZE) (dbmem / PAGE_SIZE) k.online map ∧
    (tempesta_reserve_pages k dbmem map).calls =
      k.online.map (fun p => Call.memblock_alloc_try_nid_raw dbmem HPAGE_SIZE p) := by
  have h1 := reserve_loop_all k.memblock_alloc_try_nid_raw dbmem k.online map h
  unfold tempesta_reserve_pages
  simp only [h1.1]
  exact h1.2

/-- The result of `tempesta_reserve_pages` when the allocator first fails at
`nid`, after the online nodes `pre`. -/
theorem reserve_pages_fail (k : Kernel) (dbmem : Nat) (map : Table) (pre post : List Int)
    (nid : Int) (hsplit : k.online = pre ++ nid :: post)
    (hpre : ∀ p ∈ pre, k.memblock_alloc_try_nid_raw dbmem HPAGE_SIZE p ≠ 0)
    (hfail : k.memblock_alloc_try_nid_raw dbmem HPAGE_SIZE nid = 0) :
    (tempesta_reserve_pages k dbmem map).map =
      memset_map k.MAX_NUMNODES
        (filled (k.memblock_alloc_try_nid_raw dbmem HPAGE_SIZE) (dbmem / PAGE_SIZE) pre map) ∧
    (tempesta_reserve_pages k dbmem map).calls =
      (pre.map (fun p => Call.memblock_alloc_try_nid_raw dbmem HPAGE_SIZE p) ++
        [Call.memblock_alloc_try_nid_raw dbmem HPAGE_SIZE nid]) ++
      release_loop k.virt_to_phys (pre ++ nid :: post)
        (filled (k.memblock_alloc_try_nid_raw dbmem HPAGE_SIZE) (dbmem / PAGE_SIZE) pre map) := by
  have h1 := reserve_loop_fail k.memblock_alloc_try_nid_raw dbmem pre post nid map hpre hfail
  unfold tempesta_reserve_pages
  rw [hsplit]
  simp only [h1.1, h1.2.1, h1.2.2]
  exact ⟨trivial, trivial⟩

/-! ## `tempesta_reserve_vmpages` -/

theorem set_addr_self (map : Table) (nid : Int) (a : Nat) :
    (set_addr map nid a nid).addr = a := by
  simp [set_addr]

/-- While `vzalloc_node` succeeds the allocation loop stores the regions and
goes on. -/
theorem vzalloc_loop_append (vz : Nat → Int → Nat) (dbmem : Nat) (rest : List Int) :
    ∀ (pre : List Int) (map : Table), (∀ p ∈ pre, vz dbmem p ≠ 0) →
      (vzalloc_loop vz dbmem (pre ++ rest) map).err =
        (vzalloc_loop vz dbmem rest (filled (vz dbmem) (dbmem / PAGE_SIZE) pre map)).err ∧
      (vzalloc_loop vz dbmem (pre ++ rest) map).map =
        (vzalloc_loop vz dbmem rest (filled (vz dbmem) (dbmem / PAGE_SIZE) pre map)).map ∧
      (vzalloc_loop vz dbmem (pre ++ rest) map).calls =
        pre.map (fun p => Call.vzalloc_node dbmem p) ++
        (vzalloc_loop vz dbmem rest (filled (vz dbmem) (dbmem / PAGE_SIZE) pre map)).calls := by
  intro pre
  induction pre with
  | nil =>
    intro map _
    rw [filled_nil]
    simp
  | cons p pre ih =>
    intro map h
    have hp : vz dbmem p ≠ 0 := h p (List.mem_cons_self _ _)
    have hrest : ∀ q ∈ pre, vz dbmem q ≠ 0 := fun q hq => h q (List.mem_cons_of_mem _ hq)
    have ih1 := ih (set_pages (set_addr map p (vz dbmem p)) p (dbmem / PAGE_SIZE)) hrest
    rw [set_pages_set_addr, filled_cons] at ih1
    rw [List.cons_append]
    simp only [vzalloc_loop, set_addr_self, hp, if_false, List.map_cons, List.cons_append]
    rw [set_pages_set_addr]
    exact ⟨ih1.1, ih1.2.1, by rw [ih1.2.2]⟩

/-- When `vzalloc_node` succeeds on every node the allocation loop runs to its
end and leaves the table filled for all of them. -/
theorem vzalloc_loop_all (vz : Nat → Int → Nat) (dbmem : Nat) (l : List Int) (map : Table)
    (h : ∀ p ∈ l, vz dbmem p ≠ 0) :
    (vzalloc_loop vz dbmem l map).err = none ∧
    (vzalloc_loop vz dbmem l map).map = filled (vz dbmem) (dbmem / PAGE_SIZE) l map ∧
    (vzalloc_loop vz dbmem l map).calls = l.map (fun p => Call.vzalloc_node dbmem p) := by
  have h1 := vzalloc_loop_append vz dbmem [] l map h
  rw [List.append_nil] at h1
  simp only [vzalloc_loop, List.append_nil] at h1
  exact h1

/-- When `vzalloc_node` first fails at `nid`, after the nodes `pre`, the loop
leaves through `goto err` there, having stored the null address at `nid`. -/
theorem vzalloc_loop_fail (vz : Nat → Int → Nat) (dbmem : Nat) (pre post : List Int)
    (nid : Int) (map : Table) (hpre : ∀ p ∈ pre, vz dbmem p ≠ 0) (hfail : vz dbmem nid = 0) :
    (vzalloc_loop vz dbmem (pre ++ nid :: post) map).err = some nid ∧
    (vzalloc_loop vz dbmem (pre ++ nid :: post) map).map =
      set_addr (filled (vz dbmem) (dbmem / PAGE_SIZE) pre map) nid 0 ∧
    (vzalloc_loop vz dbmem (pre ++ nid :: post) map).calls =
      pre.map (fun p => Call.vzalloc_node dbmem p) ++ [Call.vzalloc_node dbmem nid] := by
  have h1 := vzalloc_loop_append vz dbmem (nid :: post) pre map hpre
  simp only [vzalloc_loop, set_addr_self, hfail, if_true] at h1
  exact h1

/-- With every online entry populated `tempesta_reserve_vmpages` returns at
once. -/
theorem reserve_vmpages_full (k : Kernel) (dbmem : Nat) (map : Table)
    (h : ∀ nid ∈ k.online, (map nid).addr ≠ 0) :
    (tempesta_reserve_vmpages k dbmem map).bug = false ∧
    (tempesta_reserve_vmpages k dbmem map).map = map ∧
    (tempesta_reserve_vmpages k dbmem map).calls = [] := by
  have hc : count_maps k.online map = k.nr_online_nodes := by
    rw [count_maps_eq_populated, populated_eq_length _ _ h]; rfl
  unfold tempesta_reserve_vmpages
  simp only [hc, lt_self_iff_false, and_false, if_false, if_true]
  exact ⟨trivial, trivial, trivial⟩

/-- With no online entry populated `tempesta_reserve_vmpages` passes the
consistency check and, on a machine with an online node, runs the allocation
loop. -/
theorem reserve_vmpages_empty (k : Kernel) (dbmem : Nat) (map : Table)
    (h : ∀ nid ∈ k.online, (map nid).addr = 0) (hn : k.online ≠ []) :
    tempesta_reserve_vmpages k dbmem map =
      match (vzalloc_loop k.vzalloc_node dbmem k.online map).err with
      | none => ⟨false, (vzalloc_loop k.vzalloc_node dbmem k.online map).map,
          (vzalloc_loop k.vzalloc_node dbmem k.online map).calls,
          (vzalloc_loop k.vzalloc_node dbmem k.online map).log⟩
      | some nid =>
        ⟨false, memset_map k.MAX_NUMNODES (vzalloc_loop k.vzalloc_node dbmem k.online map).map,
          (vzalloc_loop k.vzalloc_node dbmem k.online map).calls ++
            vfree_loop k.online (vzalloc_loop k.vzalloc_node dbmem k.online map).map,
          (vzalloc_loop k.vzalloc_node dbmem k.online map).log ++
            [Msg.cannot_vmalloc dbmem nid]⟩ := by
  have hc : count_maps k.online map = 0 := by
    rw [count_maps_eq_populated, populated_eq_zero _ _ h]; rfl
  have hl : (0 : Int) ≠ k.nr_online_nodes := by
    unfold Kernel.nr_online_nodes
    have : 0 < k.online.length := List.length_pos.2 hn
    omega
  unfold tempesta_reserve_vmpages
  simp only [hc, ne_eq, not_true_eq_false, false_and, if_false, hl]

/-! ## The claims about the reservation passes -/

/-- C1: for every set of online nodes within the table and every pattern of
allocator successes and failures, `tempesta_reserve_pages` followed by
`tempesta_reserve_vmpages` returns (the consistency check does not fire) and
leaves the number of online nodes with a non-zero `addr` equal to 0 or to the
number of online nodes.  This holds from any table, the all-unpopulated one
included. -/
theorem boot_populated_zero_or_all (k : Kernel) (dbmem : Nat) (map : Table) (hok : k.OnlineOk) :
    (tempesta_reserve_vmpages k dbmem (tempesta_reserve_pages k dbmem map).map).bug = false ∧
    (populated k.online
        (tempesta_reserve_vmpages k dbmem (tempesta_reserve_pages k dbmem map).map).map = 0 ∨
      populated k.online
        (tempesta_reserve_vmpages k dbmem (tempesta_reserve_pages k dbmem map).map).map
          = k.online.length) := by
  rcases first_failure (k.memblock_alloc_try_nid_raw dbmem HPAGE_SIZE) k.online with
    hall | ⟨pre, nid, post, e, hp, hf⟩
  · have h1 := (reserve_pages_all k dbmem map hall).1
    have hfull : ∀ nid ∈ k.online, ((tempesta_reserve_pages k dbmem map).map nid).addr ≠ 0 := by
      rw [h1]
      intro nid hn
      simpa [filled, hn] using hall nid hn
    have h2 := reserve_vmpages_full k dbmem _ hfull
    refine ⟨h2.1, Or.inr ?_⟩
    rw [h2.2.1]
    exact populated_eq_length _ _ hfull
  · have h1 := (reserve_pages_fail k dbmem map pre post nid e hp hf).1
    have hzero : TableZero k.MAX_NUMNODES (tempesta_reserve_pages k dbmem map).map := by
      rw [h1]; exact memset_map_zero _ _
    have hz := tableZero_online k _ hok hzero
    have hn : k.online ≠ [] := by rw [e]; simp
    rw [reserve_vmpages_empty k dbmem _ hz hn]
    rcases first_failure (k.vzalloc_node dbmem) k.online with
      vall | ⟨pre2, nid2, post2, e2, hp2, hf2⟩
    · have h3 := vzalloc_loop_all k.vzalloc_node dbmem k.online
        (tempesta_reserve_pages k dbmem map).map vall
      simp only [h3.1]
      refine ⟨trivial, Or.inr ?_⟩
      apply populated_eq_length
      intro n2 hn2
      rw [h3.2.1]
      simpa [filled, hn2] using vall n2 hn2
    · have h3 : (vzalloc_loop k.vzalloc_node dbmem k.online
          (tempesta_reserve_pages k dbmem map).map).err = some nid2 := by
        rw [e2]; exact (vzalloc_loop_fail k.vzalloc_node dbmem pre2 post2 nid2 _ hp2 hf2).1
      simp only [h3]
      refine ⟨trivial, Or.inl ?_⟩
      exact populated_eq_zero _ _ (tableZero_online k _ hok (memset_map_zero _ _))

theorem boot_populated_zero_or_all_witness :
    (tempesta_reserve_vmpages sampleKernel DEFAULT_MEMSZ
      (tempesta_reserve_pages sampleKernel DEFAULT_MEMSZ zeroTable).map).bug = false ∧
    (populated sampleKernel.online
        (tempesta_reserve_vmpages sampleKernel DEFAULT_MEMSZ
          (tempesta_reserve_pages sampleKernel DEFAULT_MEMSZ zeroTable).map).map = 0 ∨
      populated sampleKernel.online
        (tempesta_reserve_vmpages sampleKernel DEFAULT_MEMSZ
          (tempesta_reserve_pages sampleKernel DEFAULT_MEMSZ zeroTable).map).map
          = sampleKernel.online.length) :=
  boot_populated_zero_or_all sampleKernel DEFAULT_MEMSZ zeroTable ⟨by decide, by decide⟩

/-- C2: started on the all-unpopulated table, for every pattern of allocator
outcomes `tempesta_reserve_pages` leaves the table either populated for every
online node (the other entries still zero) or with every entry zero. -/
theorem reserve_pages_all_or_nothing (k : Kernel) (dbmem : Nat) (map : Table)
    (hz : TableZero k.MAX_NUMNODES map) :
    ((∀ nid ∈ k.online, ((tempesta_reserve_pages k dbmem map).map nid).addr ≠ 0) ∧
      ∀ i : Int, 0 ≤ i → i < k.MAX_NUMNODES → i ∉ k.online →
        (tempesta_reserve_pages k dbmem map).map i = ⟨0, 0⟩) ∨
    TableZero k.MAX_NUMNODES (tempesta_reserve_pages k dbmem map).map := by
  rcases first_failure (k.memblock_alloc_try_nid_raw dbmem HPAGE_SIZE) k.online with
    hall | ⟨pre, nid, post, e, hp, hf⟩
  · left
    rw [(reserve_pages_all k dbmem map hall).1]
    constructor
    · intro nid hn
      simpa [filled, hn] using hall nid hn
    · intro i h0 h1 hi
      simpa [filled, hi] using hz i h0 h1
  · right
    rw [(reserve_pages_fail k dbmem map pre post nid e hp hf).1]
    exact memset_map_zero _ _

theorem reserve_pages_all_or_nothing_witness :
    ((∀ nid ∈ sampleKernel.online,
        ((tempesta_reserve_pages sampleKernel DEFAULT_MEMSZ zeroTable).map nid).addr ≠ 0) ∧
      ∀ i : Int, 0 ≤ i → i < sampleKernel.MAX_NUMNODES → i ∉ sampleKernel.online →
        (tempesta_reserve_pages sampleKernel DEFAULT_MEMSZ zeroTable).map i = ⟨0, 0⟩) ∨
    TableZero sampleKernel.MAX_NUMNODES
      (tempesta_reserve_pages sampleKernel DEFAULT_MEMSZ zeroTable).map :=
  reserve_pages_all_or_nothing sampleKernel DEFAULT_MEMSZ zeroTable (fun _ _ _ => rfl)

/-- C3: if `tempesta_reserve_pages`, started on the empty table with a valid
`dbmem`, first fails at the online node `nid`, after the online nodes `pre`,
then its allocator calls are: one reservation attempt for each node of `pre`
and one for `nid` (none for a later node), then one `memblock_free` for each
region reserved for `pre` and nothing else, each of length `dbmem`; and
afterwards every entry of the table is zero. -/
theorem reserve_pages_rollback (k : Kernel) (dbmem : Nat) (map : Table) (pre post : List Int)
    (nid : Int) (hok : k.OnlineOk) (hz : TableZero k.MAX_NUMNODES map) (hd : DbmemValid dbmem)
    (hsplit : k.online = pre ++ nid :: post)
    (hpre : ∀ p ∈ pre, k.memblock_alloc_try_nid_raw dbmem HPAGE_SIZE p ≠ 0)
    (hfail : k.memblock_alloc_try_nid_raw dbmem HPAGE_SIZE nid = 0) :
    (tempesta_reserve_pages k dbmem map).calls =
      (pre.map (fun p => Call.memblock_alloc_try_nid_raw dbmem HPAGE_SIZE p) ++
        [Call.memblock_alloc_try_nid_raw dbmem HPAGE_SIZE nid]) ++
      pre.map (fun p => Call.memblock_free
        (k.virt_to_phys (k.memblock_alloc_try_nid_raw dbmem HPAGE_SIZE p)) dbmem) ∧
    TableZero k.MAX_NUMNODES (tempesta_reserve_pages k dbmem map).map := by
  have h1 := reserve_pages_fail k dbmem map pre post nid hsplit hpre hfail
  have hpw := hok.1
  rw [hsplit, List.pairwise_append] at hpw
  have hrest : ∀ q ∈ nid :: post, q ∉ pre ∧ (map q).addr = 0 := by
    intro q hq
    constructor
    · intro hqp
      exact lt_irrefl q (hpw.2.2 q hqp q hq)
    · have hr := hok.2 q (by rw [hsplit]; exact List.mem_append_right _ hq)
      rw [hz q hr.1 hr.2]
  constructor
  · rw [h1.2, release_loop_filled _ _ _ _ _ _ hpre hrest, pages_bytes dbmem hd]
  · rw [h1.1]; exact memset_map_zero _ _

theorem reserve_pages_rollback_witness :
    (tempesta_reserve_pages sampleKernel DEFAULT_MEMSZ zeroTable).calls =
      (([0, 1] : List Int).map
          (fun p => Call.memblock_alloc_try_nid_raw DEFAULT_MEMSZ HPAGE_SIZE p) ++
        [Call.memblock_alloc_try_nid_raw DEFAULT_MEMSZ HPAGE_SIZE 2]) ++
      ([0, 1] : List Int).map (fun p => Call.memblock_free
        (sampleKernel.virt_to_phys
          (sampleKernel.memblock_alloc_try_nid_raw DEFAULT_MEMSZ HPAGE_SIZE p)) DEFAULT_MEMSZ) ∧
    TableZero sampleKernel.MAX_NUMNODES
      (tempesta_reserve_pages sampleKernel DEFAULT_MEMSZ zeroTable).map :=
  reserve_pages_rollback sampleKernel DEFAULT_MEMSZ zeroTable [0, 1] [3] 2
    ⟨by decide, by decide⟩ (fun _ _ _ => rfl) DbmemValid_DEFAULT rfl (by decide) rfl

/-- C4: if the table is populated for every online node when
`tempesta_reserve_vmpages` is called, it returns without any call to
`vzalloc_node` or `vfree` (no allocator call at all) and leaves every table
entry unchanged. -/
theorem reserve_vmpages_noop (k : Kernel) (dbmem : Nat) (map : Table)
    (h : ∀ nid ∈ k.online, (map nid).addr ≠ 0) :
    (tempesta_reserve_vmpages k dbmem map).bug = false ∧
    (tempesta_reserve_vmpages k dbmem map).calls = [] ∧
    ∀ i : Int, (tempesta_reserve_vmpages k dbmem map).map i = map i := by
  have h1 := reserve_vmpages_full k dbmem map h
  exact ⟨h1.1, h1.2.2, fun i => by rw [h1.2.1]⟩

theorem reserve_vmpages_noop_witness :
    (tempesta_reserve_vmpages sampleKernel DEFAULT_MEMSZ fullTable).bug = false ∧
    (tempesta_reserve_vmpages sampleKernel DEFAULT_MEMSZ fullTable).calls = [] ∧
    ∀ i : Int, (tempesta_reserve_vmpages sampleKernel DEFAULT_MEMSZ fullTable).map i
      = fullTable i :=
  reserve_vmpages_noop sampleKernel DEFAULT_MEMSZ fullTable (by decide)

/-! ## `tempesta_get_mapping` -/

theorem get_mapping_unpopulated (map : Table) (nid : Int) (tm : Option Int)
    (h : (map nid).addr = 0) :
    (tempesta_get_mapping map nid tm).ret = -ENOMEM ∧
    (tempesta_get_mapping map nid tm).tm = tm ∧
    (tempesta_get_mapping map nid tm).map = map := by
  unfold tempesta_get_mapping
  rw [if_pos h]
  exact ⟨rfl, rfl, rfl⟩

theorem get_mapping_populated (map : Table) (nid : Int) (tm : Option Int)
    (h : (map nid).addr ≠ 0) :
    (tempesta_get_mapping map nid tm).ret = 0 ∧
    (tempesta_get_mapping map nid tm).tm = some nid ∧
    (tempesta_get_mapping map nid tm).map = map := by
  unfold tempesta_get_mapping
  rw [if_neg h]
  exact ⟨rfl, rfl, rfl⟩

theorem neg_ENOMEM_ne_zero : -ENOMEM ≠ 0 := by decide

/-- C5 (amended): if the physical reservation fails at some online node and
the vmalloc fallback fails at some online node, then
`tempesta_reserve_vmpages` returns with every entry of the table zero, and
`tempesta_get_mapping` returns `-ENOMEM`, leaving the output as it was, for
every node id within the table (`0 ≤ nid < MAX_NUMNODES`). -/
theorem both_passes_fail (k : Kernel) (dbmem : Nat) (map : Table) (hok : k.OnlineOk)
    (hf1 : ∃ nid ∈ k.online, k.memblock_alloc_try_nid_raw dbmem HPAGE_SIZE nid = 0)
    (hf2 : ∃ nid ∈ k.online, k.vzalloc_node dbmem nid = 0) :
    (tempesta_reserve_vmpages k dbmem (tempesta_reserve_pages k dbmem map).map).bug = false ∧
    TableZero k.MAX_NUMNODES
      (tempesta_reserve_vmpages k dbmem (tempesta_reserve_pages k dbmem map).map).map ∧
    ∀ (nid : Int) (tm : Option Int), 0 ≤ nid → nid < k.MAX_NUMNODES →
      (tempesta_get_mapping
        (tempesta_reserve_vmpages k dbmem (tempesta_reserve_pages k dbmem map).map).map
        nid tm).ret = -ENOMEM ∧
      (tempesta_get_mapping
        (tempesta_reserve_vmpages k dbmem (tempesta_reserve_pages k dbmem map).map).map
        nid tm).tm = tm := by
  obtain ⟨n1, hn1, hz1⟩ := hf1
  obtain ⟨n2, hn2, hz2⟩ := hf2
  rcases first_failure (k.memblock_alloc_try_nid_raw dbmem HPAGE_SIZE) k.online with
    hall | ⟨pre, nid, post, e, hp, hf⟩
  · exact absurd hz1 (hall n1 hn1)
  rcases first_failure (k.vzalloc_node dbmem) k.online with
    vall | ⟨pre2, nid2, post2, e2, hp2, hf2⟩
  · exact absurd hz2 (vall n2 hn2)
  have h1 := (reserve_pages_fail k dbmem map pre post nid e hp hf).1
  have hzero : TableZero k.MAX_NUMNODES (tempesta_reserve_pages k dbmem map).map := by
    rw [h1]; exact memset_map_zero _ _
  have hz := tableZero_online k _ hok hzero
  have hne : k.online ≠ [] := by rw [e]; simp
  have h3 : (vzalloc_loop k.vzalloc_node dbmem k.online
      (tempesta_reserve_pages k dbmem map).map).err = some nid2 := by
    rw [e2]; exact (vzalloc_loop_fail k.vzalloc_node dbmem pre2 post2 nid2 _ hp2 hf2).1
  rw [reserve_vmpages_empty k dbmem _ hz hne]
  simp only [h3]
  refine ⟨trivial, memset_map_zero _ _, ?_⟩
  intro i tm h0 hi
  have ha : (memset_map k.MAX_NUMNODES (vzalloc_loop k.vzalloc_node dbmem k.online
      (tempesta_reserve_pages k dbmem map).map).map i).addr = 0 := by
    rw [memset_map_zero _ _ i h0 hi]
  have hg := get_mapping_unpopulated _ i tm ha
  exact ⟨hg.1, hg.2.1⟩

theorem both_passes_fail_witness :
    (tempesta_reserve_vmpages sampleKernel DEFAULT_MEMSZ
      (tempesta_reserve_pages sampleKernel DEFAULT_MEMSZ zeroTable).map).bug = false ∧
    TableZero sampleKernel.MAX_NUMNODES
      (tempesta_reserve_vmpages sampleKernel DEFAULT_MEMSZ
        (tempesta_reserve_pages sampleKernel DEFAULT_MEMSZ zeroTable).map).map ∧
    ∀ (nid : Int) (tm : Option Int), 0 ≤ nid → nid < sampleKernel.MAX_NUMNODES →
      (tempesta_get_mapping
        (tempesta_reserve_vmpages sampleKernel DEFAULT_MEMSZ
          (tempesta_reserve_pages sampleKernel DEFAULT_MEMSZ zeroTable).map).map
        nid tm).ret = -ENOMEM ∧
      (tempesta_get_mapping
        (tempesta_reserve_vmpages sampleKernel DEFAULT_MEMSZ
          (tempesta_reserve_pages sampleKernel DEFAULT_MEMSZ zeroTable).map).map
        nid tm).tm = tm :=
  both_passes_fail sampleKernel DEFAULT_MEMSZ zeroTable ⟨by decide, by decide⟩
    ⟨2, by decide, rfl⟩ ⟨3, by decide, rfl⟩

/-- C6: for every node id `nid` within the table and every table state,
`tempesta_get_mapping` leaves the table unchanged, returns 0 exactly when
entry `nid` has a non-zero `addr`, in that case with `*tm` pointing at entry
`nid` itself, and otherwise returns `-ENOMEM` with `*tm` as it was. -/
theorem get_mapping_spec (MAX_NUMNODES : Int) (map : Table) (nid : Int) (tm : Option Int)
    (h0 : 0 ≤ nid) (h1 : nid < MAX_NUMNODES) :
    (tempesta_get_mapping map nid tm).map = map ∧
    ((tempesta_get_mapping map nid tm).ret = 0 ↔ (map nid).addr ≠ 0) ∧
    ((map nid).addr ≠ 0 →
      (tempesta_get_mapping map nid tm).ret = 0 ∧
      (tempesta_get_mapping map nid tm).tm = some nid ∧
      (tempesta_get_mapping map nid tm).tm.map (tempesta_get_mapping map nid tm).map
        = some (map nid)) ∧
    ((map nid).addr = 0 →
      (tempesta_get_mapping map nid tm).ret = -ENOMEM ∧
      (tempesta_get_mapping map nid tm).tm = tm) := by
  by_cases h : (map nid).addr = 0
  · have hg := get_mapping_unpopulated map nid tm h
    refine ⟨hg.2.2, ?_, fun hne => absurd h hne, fun _ => ⟨hg.1, hg.2.1⟩⟩
    rw [hg.1]
    exact ⟨fun he => absurd he neg_ENOMEM_ne_zero, fun hne => absurd h hne⟩
  · have hg := get_mapping_populated map nid tm h
    refine ⟨hg.2.2, ?_, fun _ => ⟨hg.1, hg.2.1, ?_⟩, fun he => absurd he h⟩
    · exact ⟨fun _ => h, fun _ => hg.1⟩
    · rw [hg.2.1, hg.2.2]; rfl

theorem get_mapping_spec_witness :
    (tempesta_get_mapping fullTable 1 none).map = fullTable ∧
    ((tempesta_get_mapping fullTable 1 none).ret = 0 ↔ (fullTable 1).addr ≠ 0) ∧
    ((fullTable 1).addr ≠ 0 →
      (tempesta_get_mapping fullTable 1 none).ret = 0 ∧
      (tempesta_get_mapping fullTable 1 none).tm = some 1 ∧
      (tempesta_get_mapping fullTable 1 none).tm.map (tempesta_get_mapping fullTable 1 none).map
        = some (fullTable 1)) ∧
    ((fullTable 1).addr = 0 →
      (tempesta_get_mapping fullTable 1 none).ret = -ENOMEM ∧
      (tempesta_get_mapping fullTable 1 none).tm = none) :=
  get_mapping_spec 64 fullTable 1 none (by decide) (by decide)

/-- C7 (counterexample): on a table whose 64 entries are all zero, with a
non-zero word in the storage just before the array, `tempesta_get_mapping(-1)`
does not fail: it returns 0 with a pointer outside the table. -/
theorem get_mapping_out_of_range_succeeds :
    (-1 : Int) < 0 ∧ TableZero 64 strayTable ∧
    (tempesta_get_mapping strayTable (-1) none).ret = 0 ∧
    (tempesta_get_mapping strayTable (-1) none).ret ≠ -ENOMEM ∧
    (tempesta_get_mapping strayTable (-1) none).tm = some (-1) := by
  refine ⟨by decide, ?_, by decide, by decide, by decide⟩
  intro i h0 _
  have : i ≠ -1 := by omega
  simp [strayTable, this]

/-- C7 (amended): `tempesta_get_mapping` makes no range check.  For a node id
out of range of the table it reads `map[nid]` outside the array: where no
storage is mapped at that offset the read faults and the call does not return;
where storage is mapped it fails with `-ENOMEM`, leaving `*tm` as it was,
exactly when the `addr` word found there is zero, and otherwise returns 0 with
a pointer outside the table. -/
theorem get_mapping_no_range_check (MAX_NUMNODES : Int) (mapped : Int → Bool) (map : Table)
    (nid : Int) (tm : Option Int) (hout : nid < 0 ∨ MAX_NUMNODES ≤ nid) :
    (mapped nid = false →
      tempesta_get_mapping_mapped MAX_NUMNODES mapped map nid tm = none) ∧
    (mapped nid = true →
      tempesta_get_mapping_mapped MAX_NUMNODES mapped map nid tm
        = some (tempesta_get_mapping map nid tm) ∧
      ((tempesta_get_mapping map nid tm).ret = -ENOMEM ↔ (map nid).addr = 0) ∧
      ((map nid).addr = 0 → (tempesta_get_mapping map nid tm).tm = tm) ∧
      ((map nid).addr ≠ 0 →
        (tempesta_get_mapping map nid tm).ret = 0 ∧
        (tempesta_get_mapping map nid tm).tm = some nid)) := by
  have hin : ¬ (0 ≤ nid ∧ nid < MAX_NUMNODES) := by omega
  constructor
  · intro hm
    unfold tempesta_get_mapping_mapped
    rw [if_neg]
    intro h
    rcases h with h | h
    · exact hin h
    · rw [hm] at h; exact Bool.noConfusion h
  · intro hm
    refine ⟨?_, ?_, ?_, ?_⟩
    · unfold tempesta_get_mapping_mapped
      rw [if_pos (Or.inr hm)]
    · by_cases h : (map nid).addr = 0
      · rw [(get_mapping_unpopulated map nid tm h).1]
        exact ⟨fun _ => h, fun _ => rfl⟩
      · rw [(get_mapping_populated map nid tm h).1]
        exact ⟨fun he => absurd he.symm neg_ENOMEM_ne_zero, fun he => absurd he h⟩
    · intro h
      exact (get_mapping_unpopulated map nid tm h).2.1
    · intro h
      exact ⟨(get_mapping_populated map nid tm h).1, (get_mapping_populated map nid tm h).2.1⟩

theorem get_mapping_no_range_check_witness :
    ((fun i : Int => decide (i = -1)) (-1) = false →
      tempesta_get_mapping_mapped 64 (fun i => decide (i = -1)) strayTable (-1) none = none) ∧
    ((fun i : Int => decide (i = -1)) (-1) = true →
      tempesta_get_mapping_mapped 64 (fun i => decide (i = -1)) strayTable (-1) none
        = some (tempesta_get_mapping strayTable (-1) none) ∧
      ((tempesta_get_mapping strayTable (-1) none).ret = -ENOMEM ↔ (strayTable (-1)).addr = 0) ∧
      ((strayTable (-1)).addr = 0 → (tempesta_get_mapping strayTable (-1) none).tm = none) ∧
      ((strayTable (-1)).addr ≠ 0 →
        (tempesta_get_mapping strayTable (-1) none).ret = 0 ∧
        (tempesta_get_mapping strayTable (-1) none).tm = some (-1))) :=
  get_mapping_no_range_check 64 (fun i => decide (i = -1)) strayTable (-1) none
    (Or.inl (by decide))

/-! ## More on `tempesta_setup_pages` -/

theorem clamp_min_log (d : BadDbmem) (r : Nat) (l : List BadDbmem) (c : Int) :
    (clamp_min d ⟨r, l, c⟩).log = if r < MIN_MEMSZ then l ++ [d] else l := by
  unfold clamp_min; split <;> rfl

theorem clamp_max_log (d : BadDbmem) (s : SetupResult) :
    (clamp_max d s).log = if s.dbmem > MAX_MEMSZ then s.log ++ [d] else s.log := by
  unfold clamp_max; split <;> rfl

/-- The diagnostics of one call: one record when the rounded value is out of
the bounds, none otherwise. -/
theorem setup_pages_log (n raw : Nat) :
    (tempesta_setup_pages n raw).log =
      if round_up (raw / n) HPAGE_SIZE < MIN_MEMSZ ∨ round_up (raw / n) HPAGE_SIZE > MAX_MEMSZ
      then [bad_dbmem n raw] else [] := by
  have hmm := MIN_le_MAX
  rw [tempesta_setup_pages, clamp_max_log, clamp_min_dbmem, clamp_min_log]
  generalize round_up (raw / n) HPAGE_SIZE = r
  generalize bad_dbmem n raw = d
  by_cases h1 : r < MIN_MEMSZ
  · have h2 : ¬ MIN_MEMSZ > MAX_MEMSZ := by omega
    rw [if_pos h1, if_pos h1, if_neg h2, if_pos (Or.inl h1)]
    rfl
  · by_cases h3 : r > MAX_MEMSZ
    · rw [if_neg h1, if_neg h1, if_pos h3, if_pos (Or.inr h3)]
      rfl
    · have h4 : ¬ (r < MIN_MEMSZ ∨ r > MAX_MEMSZ) := fun h => h.elim h1 h3
      rw [if_neg h1, if_neg h1, if_neg h3, if_neg h4]

theorem round_up_lt (x y : Nat) : round_up x y < ULONG_MOD := by
  unfold round_up
  exact Nat.mod_lt _ (by rw [ULONG_MOD_eq]; decide)

/-- A multiple of `HPAGE_SIZE` that fits an `unsigned long` is left as it is
by `round_up`. -/
theorem round_up_of_dvd (m : Nat) (hm : m < ULONG_MOD) (hd : HPAGE_SIZE ∣ m) :
    round_up m HPAGE_SIZE = m := by
  rcases Nat.eq_zero_or_pos m with h0 | h0
  · rw [h0]; exact round_up_zero
  · rw [round_up_pos m h0 hm]
    obtain ⟨q, hq⟩ := hd
    rw [HPAGE_SIZE_eq] at hq ⊢
    rw [ULONG_MOD_eq] at hm ⊢
    have h1 : (m - 1) / 2097152 + 1 = q := by omega
    rw [h1, ← hq]
    exact Nat.mod_eq_of_lt hm

/-- C20: the rounding used by `tempesta_setup_pages` is idempotent on every
`unsigned long` `x`, and it leaves every `unsigned long` multiple `m` of
`HPAGE_SIZE` unchanged. -/
theorem round_up_idempotent (x m : Nat) (hx : x < ULONG_MOD) (hm : m < ULONG_MOD)
    (hd : HPAGE_SIZE ∣ m) :
    round_up (round_up x HPAGE_SIZE) HPAGE_SIZE = round_up x HPAGE_SIZE ∧
    round_up m HPAGE_SIZE = m :=
  ⟨round_up_of_dvd _ (round_up_lt x HPAGE_SIZE) (round_up_dvd x hx), round_up_of_dvd m hm hd⟩

theorem round_up_idempotent_witness :
    round_up (round_up 3000000 HPAGE_SIZE) HPAGE_SIZE = round_up 3000000 HPAGE_SIZE ∧
    round_up 4194304 HPAGE_SIZE = 4194304 :=
  round_up_idempotent 3000000 4194304 (by rw [ULONG_MOD_eq]; decide)
    (by rw [ULONG_MOD_eq]; decide) (by rw [HPAGE_SIZE_eq]; exact ⟨2, by norm_num⟩)

/-- C11: for every online node count `n ≥ 1` and every parsed total with
`MIN_MEMSZ * n ≤ total ≤ MAX_MEMSZ * n`, `tempesta_setup_pages` leaves `dbmem`
equal to `round_up(total / n, HPAGE_SIZE)`, which is the quotient rounded up
to the next multiple of `HPAGE_SIZE`, and applies neither clamp (no diagnostic
is printed). -/
theorem setup_pages_in_range (n raw : Nat) (hn : 1 ≤ n) (hlo : MIN_MEMSZ * n ≤ raw)
    (hhi : raw ≤ MAX_MEMSZ * n) :
    (tempesta_setup_pages n raw).dbmem = round_up (raw / n) HPAGE_SIZE ∧
    (tempesta_setup_pages n raw).dbmem =
      HPAGE_SIZE * ((raw / n + HPAGE_SIZE - 1) / HPAGE_SIZE) ∧
    (tempesta_setup_pages n raw).log = [] := by
  have hx1 : MIN_MEMSZ ≤ raw / n := (Nat.le_div_iff_mul_le (by omega)).2 hlo
  have hx2 : raw / n ≤ MAX_MEMSZ := Nat.div_le_of_le_mul (by rwa [Nat.mul_comm] at hhi)
  have h0 : 0 < raw / n := lt_of_lt_of_le (by rw [MIN_MEMSZ_eq]; decide) hx1
  have hw : raw / n + HPAGE_SIZE ≤ ULONG_MOD := by
    rw [MAX_MEMSZ_eq] at hx2
    rw [HPAGE_SIZE_eq, ULONG_MOD_eq]
    omega
  have hr := round_up_no_wrap (raw / n) h0 hw
  rw [setup_pages_dbmem, setup_pages_log, hr]
  generalize raw / n = x at hx1 hx2 h0
  rw [MIN_MEMSZ_eq] at hx1 ⊢
  rw [MAX_MEMSZ_eq] at hx2 ⊢
  rw [HPAGE_SIZE_eq]
  have h1 : ¬ 2097152 * ((x - 1) / 2097152 + 1) < 33554432 := by omega
  have h2 : ¬ 2097152 * ((x - 1) / 2097152 + 1) > 137438953472 := by omega
  have h3 : ¬ (2097152 * ((x - 1) / 2097152 + 1) < 33554432 ∨
      2097152 * ((x - 1) / 2097152 + 1) > 137438953472) := fun h => h.elim h1 h2
  rw [if_neg h1, if_neg h2, if_neg h3]
  refine ⟨rfl, ?_, rfl⟩
  have h4 : (x + 2097152 - 1) / 2097152 = (x - 1) / 2097152 + 1 := by omega
  rw [h4]

theorem setup_pages_in_range_witness :
    (tempesta_setup_pages 4 2147483648).dbmem = round_up (2147483648 / 4) HPAGE_SIZE ∧
    (tempesta_setup_pages 4 2147483648).dbmem =
      HPAGE_SIZE * ((2147483648 / 4 + HPAGE_SIZE - 1) / HPAGE_SIZE) ∧
    (tempesta_setup_pages 4 2147483648).log = [] :=
  setup_pages_in_range 4 2147483648 (by decide) (by rw [MIN_MEMSZ_eq]; decide)
    (by rw [MAX_MEMSZ_eq]; decide)

theorem setup_pages_zero (n : Nat) :
    (tempesta_setup_pages n 0).dbmem = MIN_MEMSZ ∧
    (tempesta_setup_pages n 0).log = [bad_dbmem n 0] := by
  have h1 : (0 : Nat) < MIN_MEMSZ := by rw [MIN_MEMSZ_eq]; decide
  rw [setup_pages_dbmem, setup_pages_log, Nat.zero_div, round_up_zero, if_pos h1,
    if_pos (Or.inl h1)]
  exact ⟨rfl, rfl⟩

theorem MIN_ne_DEFAULT : MIN_MEMSZ ≠ DEFAULT_MEMSZ := by
  rw [MIN_MEMSZ_eq, DEFAULT_MEMSZ_eq]; decide

/-- C12 (counterexample): with one online node and a parsed byte count of 0,
`tempesta_setup_pages` leaves `dbmem = MIN_MEMSZ`, which is not
`DEFAULT_MEMSZ`. -/
theorem setup_pages_zero_not_default :
    (tempesta_setup_pages 1 0).dbmem = MIN_MEMSZ ∧
    (tempesta_setup_pages 1 0).dbmem ≠ DEFAULT_MEMSZ := by
  have h := (setup_pages_zero 1).1
  refine ⟨h, ?_⟩
  rw [h]
  exact MIN_ne_DEFAULT

/-- C12 (amended): when the parsed byte count is 0 (a malformed or zero size
specification), `tempesta_setup_pages` clamps: for every online node count
`n ≥ 1` it leaves `dbmem = MIN_MEMSZ` and prints one diagnostic. -/
theorem setup_pages_zero_clamps (n : Nat) (hn : 1 ≤ n) :
    (tempesta_setup_pages n 0).dbmem = MIN_MEMSZ ∧
    (tempesta_setup_pages n 0).log = [bad_dbmem n 0] :=
  setup_pages_zero n

theorem setup_pages_zero_clamps_witness :
    (tempesta_setup_pages 4 0).dbmem = MIN_MEMSZ ∧
    (tempesta_setup_pages 4 0).log = [bad_dbmem 4 0] :=
  setup_pages_zero_clamps 4 (by decide)

/-- The diagnostics for a per-node share `x = total / n` below `MIN_MEMSZ`:
one record when `x + HPAGE_SIZE ≤ MIN_MEMSZ`, none when `x` rounds up to
`MIN_MEMSZ`. -/
theorem setup_pages_log_below_min (n raw : Nat) (hx : raw / n < MIN_MEMSZ) :
    (raw / n + HPAGE_SIZE ≤ MIN_MEMSZ → (tempesta_setup_pages n raw).log = [bad_dbmem n raw]) ∧
    (MIN_MEMSZ < raw / n + HPAGE_SIZE → (tempesta_setup_pages n raw).log = []) := by
  rw [setup_pages_log]
  rcases Nat.eq_zero_or_pos (raw / n) with h0 | h0
  · have h1 : (0 : Nat) < MIN_MEMSZ := by rw [MIN_MEMSZ_eq]; decide
    rw [h0, round_up_zero, if_pos (Or.inl h1)]
    refine ⟨fun _ => rfl, fun h => ?_⟩
    rw [MIN_MEMSZ_eq, HPAGE_SIZE_eq] at h
    omega
  · have hr := round_up_no_wrap (raw / n) h0
      (by rw [MIN_MEMSZ_eq] at hx; rw [HPAGE_SIZE_eq, ULONG_MOD_eq]; omega)
    rw [hr]
    generalize raw / n = x at hx h0
    rw [MIN_MEMSZ_eq] at hx ⊢
    rw [MAX_MEMSZ_eq, HPAGE_SIZE_eq]
    constructor
    · intro h
      rw [if_pos (Or.inl (by omega))]
    · intro h
      rw [if_neg (fun h' => h'.elim (fun a => by omega) (fun a => by omega))]

/-- C13 (counterexample): with one online node and a parsed total of
`MIN_MEMSZ - 1`, which is below `MIN_MEMSZ * 1`, the share rounds up to
`MIN_MEMSZ` and `tempesta_setup_pages` prints no diagnostic. -/
theorem setup_pages_silent_below_min :
    33554431 < MIN_MEMSZ * 1 ∧
    (tempesta_setup_pages 1 33554431).log = [] ∧
    (tempesta_setup_pages 1 33554431).dbmem = MIN_MEMSZ := by
  have hx : 33554431 / 1 < MIN_MEMSZ := by rw [MIN_MEMSZ_eq]; decide
  have hlt : 33554431 < MIN_MEMSZ * 1 := by rw [MIN_MEMSZ_eq]; decide
  refine ⟨hlt, (setup_pages_log_below_min 1 33554431 hx).2
    (by rw [MIN_MEMSZ_eq, HPAGE_SIZE_eq]; decide), ?_⟩
  rw [setup_pages_dbmem, round_up_no_wrap (33554431 / 1) (by decide)
    (by rw [HPAGE_SIZE_eq, ULONG_MOD_eq]; decide), MIN_MEMSZ_eq, MAX_MEMSZ_eq, HPAGE_SIZE_eq]
  decide

/-- C13 (amended): for every online node count `n ≥ 1` and every parsed total
strictly below `MIN_MEMSZ * n`, `tempesta_setup_pages` prints the clamp
diagnostic when the share `total / n` is at most `MIN_MEMSZ - HPAGE_SIZE`
(it then rounds to a value below `MIN_MEMSZ`); for the remaining totals the
share rounds up to `MIN_MEMSZ` itself and nothing is printed. -/
theorem setup_pages_diag_below_min (n raw : Nat) (hn : 1 ≤ n) (hraw : raw < MIN_MEMSZ * n) :
    (raw / n + HPAGE_SIZE ≤ MIN_MEMSZ → (tempesta_setup_pages n raw).log = [bad_dbmem n raw]) ∧
    (MIN_MEMSZ < raw / n + HPAGE_SIZE → (tempesta_setup_pages n raw).log = []) :=
  setup_pages_log_below_min n raw (Nat.div_lt_of_lt_mul (by rwa [Nat.mul_comm] at hraw))

theorem setup_pages_diag_below_min_witness :
    (1048576 / 4 + HPAGE_SIZE ≤ MIN_MEMSZ →
      (tempesta_setup_pages 4 1048576).log = [bad_dbmem 4 1048576]) ∧
    (MIN_MEMSZ < 1048576 / 4 + HPAGE_SIZE → (tempesta_setup_pages 4 1048576).log = []) :=
  setup_pages_diag_below_min 4 1048576 (by decide) (by rw [MIN_MEMSZ_eq]; decide)

/-- C16: for every parsed total and node count `n ≥ 1`, one call of
`tempesta_setup_pages` prints exactly one diagnostic when the rounded value
`round_up(total / n, HPAGE_SIZE)` is below `MIN_MEMSZ` or above `MAX_MEMSZ`
and none otherwise; the second clamp never fires after the first. -/
theorem setup_pages_one_diag (n raw : Nat) (hn : 1 ≤ n) (hraw : raw < ULONG_MOD) :
    ((round_up (raw / n) HPAGE_SIZE < MIN_MEMSZ ∨ round_up (raw / n) HPAGE_SIZE > MAX_MEMSZ) →
      (tempesta_setup_pages n raw).log = [bad_dbmem n raw] ∧
      (tempesta_setup_pages n raw).log.length = 1) ∧
    (¬ (round_up (raw / n) HPAGE_SIZE < MIN_MEMSZ ∨ round_up (raw / n) HPAGE_SIZE > MAX_MEMSZ) →
      (tempesta_setup_pages n raw).log = []) ∧
    ¬ (round_up (raw / n) HPAGE_SIZE < MIN_MEMSZ ∧
        (clamp_min (bad_dbmem n raw) ⟨round_up (raw / n) HPAGE_SIZE, [], 1⟩).dbmem
          > MAX_MEMSZ) := by
  have hmm := MIN_le_MAX
  rw [setup_pages_log, clamp_min_dbmem]
  generalize round_up (raw / n) HPAGE_SIZE = r
  refine ⟨fun h => ?_, fun h => ?_, fun h => ?_⟩
  · rw [if_pos h]; exact ⟨rfl, rfl⟩
  · rw [if_neg h]
  · rw [if_pos h.1] at h
    omega

theorem setup_pages_one_diag_witness :
    ((round_up (1048576 / 4) HPAGE_SIZE < MIN_MEMSZ ∨
        round_up (1048576 / 4) HPAGE_SIZE > MAX_MEMSZ) →
      (tempesta_setup_pages 4 1048576).log = [bad_dbmem 4 1048576] ∧
      (tempesta_setup_pages 4 1048576).log.length = 1) ∧
    (¬ (round_up (1048576 / 4) HPAGE_SIZE < MIN_MEMSZ ∨
        round_up (1048576 / 4) HPAGE_SIZE > MAX_MEMSZ) →
      (tempesta_setup_pages 4 1048576).log = []) ∧
    ¬ (round_up (1048576 / 4) HPAGE_SIZE < MIN_MEMSZ ∧
        (clamp_min (bad_dbmem 4 1048576) ⟨round_up (1048576 / 4) HPAGE_SIZE, [], 1⟩).dbmem
          > MAX_MEMSZ) :=
  setup_pages_one_diag 4 1048576 (by decide) (by rw [ULONG_MOD_eq]; decide)

/-! ## More on the reservation passes -/

/-- The `vfree` calls of the rollback loop: one for each visited node whose
entry is populated, in the order of the visit. -/
theorem vfree_loop_eq (l : List Int) (map : Table) :
    vfree_loop l map =
      (l.filter (fun i => (map i).addr != 0)).map (fun i => Call.vfree (map i).addr) := by
  induction l with
  | nil => rfl
  | cons a l ih =>
    by_cases h : (map a).addr = 0
    · simp [vfree_loop, h, ih]
    · simp [vfree_loop, h, ih]

/-- The `vfree` loop run over `pre ++ nid :: post` on the table the failed
allocation loop leaves (filled for `pre`, null address at `nid`, zero on
`post`) frees exactly the regions of `pre`. -/
theorem vfree_loop_filled (f : Int → Nat) (pg : Nat) (pre post : List Int) (nid : Int)
    (map : Table) (hpre : ∀ p ∈ pre, f p ≠ 0) (hnid : nid ∉ pre)
    (hpost : ∀ q ∈ post, q ∉ pre ∧ (map q).addr = 0) :
    vfree_loop (pre ++ nid :: post) (set_addr (filled f pg pre map) nid 0) =
      pre.map (fun p => Call.vfree (f p)) := by
  rw [vfree_loop_eq, List.filter_append]
  have h1 : (nid :: post).filter
      (fun i => (set_addr (filled f pg pre map) nid 0 i).addr != 0) = [] := by
    rw [List.filter_eq_nil_iff]
    intro q hq
    by_cases hqn : q = nid
    · simp [set_addr, hqn]
    · have hq2 : q ∈ post := by
        rcases List.mem_cons.1 hq with h | h
        · exact absurd h hqn
        · exact h
      have := hpost q hq2
      simp [set_addr, hqn, filled, this.1, this.2]
  have hne : ∀ p ∈ pre, p ≠ nid := fun p hp h => hnid (h ▸ hp)
  have h2 : pre.filter
      (fun i => (set_addr (filled f pg pre map) nid 0 i).addr != 0) = pre := by
    rw [List.filter_eq_self]
    intro p hp
    simpa [set_addr, hne p hp, filled, hp] using hpre p hp
  rw [h1, h2, List.append_nil]
  apply List.map_congr_left
  intro p hp
  simp [set_addr, hne p hp, filled, hp]

/-- How the online nodes after a split relate to those before it. -/
theorem online_split (k : Kernel) (map : Table) (pre post : List Int) (nid : Int)
    (hok : k.OnlineOk) (hz : TableZero k.MAX_NUMNODES map)
    (hsplit : k.online = pre ++ nid :: post) :
    nid ∉ pre ∧ (∀ q ∈ post, q ∉ pre ∧ (map q).addr = 0) ∧
    (∀ q ∈ nid :: post, q ∉ pre ∧ (map q).addr = 0) := by
  have hpw := hok.1
  rw [hsplit, List.pairwise_append] at hpw
  have hrest : ∀ q ∈ nid :: post, q ∉ pre ∧ (map q).addr = 0 := by
    intro q hq
    constructor
    · intro hqp
      exact lt_irrefl q (hpw.2.2 q hqp q hq)
    · have hr := hok.2 q (by rw [hsplit]; exact List.mem_append_right _ hq)
      rw [hz q hr.1 hr.2]
  exact ⟨(hrest nid (List.mem_cons_self _ _)).1,
    fun q hq => hrest q (List.mem_cons_of_mem _ hq), hrest⟩

/-- The result of `tempesta_reserve_vmpages` entered with an empty table when
`vzalloc_node` first fails at `nid`, after the online nodes `pre`. -/
theorem reserve_vmpages_fail (k : Kernel) (dbmem : Nat) (map : Table) (pre post : List Int)
    (nid : Int) (hok : k.OnlineOk) (hz : TableZero k.MAX_NUMNODES map)
    (hsplit : k.online = pre ++ nid :: post)
    (hpre : ∀ p ∈ pre, k.vzalloc_node dbmem p ≠ 0) (hfail : k.vzalloc_node dbmem nid = 0) :
    (tempesta_reserve_vmpages k dbmem map).bug = false ∧
    TableZero k.MAX_NUMNODES (tempesta_reserve_vmpages k dbmem map).map ∧
    (tempesta_reserve_vmpages k dbmem map).calls =
      (pre.map (fun p => Call.vzalloc_node dbmem p) ++ [Call.vzalloc_node dbmem nid]) ++
      pre.map (fun p => Call.vfree (k.vzalloc_node dbmem p)) := by
  have hsp := online_split k map pre post nid hok hz hsplit
  have hzo := tableZero_online k map hok hz
  have hne : k.online ≠ [] := by rw [hsplit]; simp
  have h3 := vzalloc_loop_fail k.vzalloc_node dbmem pre post nid map hpre hfail
  rw [← hsplit] at h3
  rw [reserve_vmpages_empty k dbmem map hzo hne]
  simp only [h3.1, h3.2.1, h3.2.2]
  refine ⟨trivial, memset_map_zero _ _, ?_⟩
  rw [hsplit, vfree_loop_filled _ _ _ _ _ _ hpre hsp.1 hsp.2.1]

theorem reserve_vmpages_bug_true (k : Kernel) (dbmem : Nat) (map : Table)
    (h : count_maps k.online map ≠ 0 ∧ count_maps k.online map < k.nr_online_nodes) :
    (tempesta_reserve_vmpages k dbmem map).bug = true ∧
    (tempesta_reserve_vmpages k dbmem map).calls = [] ∧
    (tempesta_reserve_vmpages k dbmem map).map = map := by
  unfold tempesta_reserve_vmpages
  simp only [h.2, and_true]
  rw [if_pos h.1]
  exact ⟨rfl, rfl, rfl⟩

theorem reserve_vmpages_bug_false (k : Kernel) (dbmem : Nat) (map : Table)
    (h : ¬ (count_maps k.online map ≠ 0 ∧ count_maps k.online map < k.nr_online_nodes)) :
    (tempesta_reserve_vmpages k dbmem map).bug = false := by
  unfold tempesta_reserve_vmpages
  simp only []
  rw [if_neg h]
  split_ifs
  · rfl
  · split <;> rfl

theorem count_cond_iff (k : Kernel) (map : Table) :
    (count_maps k.online map ≠ 0 ∧ count_maps k.online map < k.nr_online_nodes) ↔
      (0 < populated k.online map ∧ populated k.online map < k.online.length) := by
  rw [count_maps_eq_populated]
  unfold Kernel.nr_online_nodes
  omega

/-- The consistency check of `tempesta_reserve_vmpages` fires exactly when the
count of populated online entries is neither 0 nor `nr_online_nodes`, and then
nothing has been called or written. -/
theorem reserve_vmpages_bug (k : Kernel) (dbmem : Nat) (map : Table) :
    ((tempesta_reserve_vmpages k dbmem map).bug = true ↔
      (0 < populated k.online map ∧ populated k.online map < k.online.length)) ∧
    ((tempesta_reserve_vmpages k dbmem map).bug = true →
      (tempesta_reserve_vmpages k dbmem map).calls = [] ∧
      (tempesta_reserve_vmpages k dbmem map).map = map) := by
  by_cases h : count_maps k.online map ≠ 0 ∧ count_maps k.online map < k.nr_online_nodes
  · have h1 := reserve_vmpages_bug_true k dbmem map h
    exact ⟨⟨fun _ => (count_cond_iff k map).1 h, fun _ => h1.1⟩, fun _ => h1.2⟩
  · have h1 := reserve_vmpages_bug_false k dbmem map h
    rw [h1]
    exact ⟨⟨fun hf => Bool.noConfusion hf, fun hp => absurd ((count_cond_iff k map).2 hp) h⟩,
      fun hf => Bool.noConfusion hf⟩

theorem released_append (l1 l2 : List Call) :
    released (l1 ++ l2) = released l1 ++ released l2 := by
  induction l1 with
  | nil => rfl
  | cons c l ih => cases c <;> simp [released, ih]

theorem released_map_alloc (size align : Nat) (l : List Int) :
    released (l.map (fun p => Call.memblock_alloc_try_nid_raw size align p)) = [] := by
  induction l with
  | nil => rfl
  | cons a l ih => simp [released, ih]

theorem released_map_vzalloc (size : Nat) (l : List Int) :
    released (l.map (fun p => Call.vzalloc_node size p)) = [] := by
  induction l with
  | nil => rfl
  | cons a l ih => simp [released, ih]

theorem released_map_free (f g : Int → Nat) (l : List Int) :
    released (l.map (fun p => Call.memblock_free (f p) (g p))) = l.map f := by
  induction l with
  | nil => rfl
  | cons a l ih => simp [released, ih]

theorem released_map_vfree (f : Int → Nat) (l : List Int) :
    released (l.map (fun p => Call.vfree (f p))) = l.map f := by
  induction l with
  | nil => rfl
  | cons a l ih => simp [released, ih]

/-- The regions the rollback of `tempesta_reserve_pages` releases, in order:
those of the nodes reserved before the failure, first reserved first. -/
theorem reserve_pages_released (k : Kernel) (dbmem : Nat) (map : Table) (pre post : List Int)
    (nid : Int) (hok : k.OnlineOk) (hz : TableZero k.MAX_NUMNODES map)
    (hsplit : k.online = pre ++ nid :: post)
    (hpre : ∀ p ∈ pre, k.memblock_alloc_try_nid_raw dbmem HPAGE_SIZE p ≠ 0)
    (hfail : k.memblock_alloc_try_nid_raw dbmem HPAGE_SIZE nid = 0) :
    released (tempesta_reserve_pages k dbmem map).calls =
      pre.map (fun p => k.virt_to_phys (k.memblock_alloc_try_nid_raw dbmem HPAGE_SIZE p)) := by
  have h1 := reserve_pages_fail k dbmem map pre post nid hsplit hpre hfail
  have hsp := online_split k map pre post nid hok hz hsplit
  rw [h1.2, release_loop_filled _ _ _ _ _ _ hpre hsp.2.2, released_append, released_append,
    released_map_alloc, released_map_free]
  rfl

/-- The regions the rollback of `tempesta_reserve_vmpages` frees, in order:
those of the nodes allocated before the failure, first allocated first. -/
theorem reserve_vmpages_released (k : Kernel) (dbmem : Nat) (map : Table) (pre post : List Int)
    (nid : Int) (hok : k.OnlineOk) (hz : TableZero k.MAX_NUMNODES map)
    (hsplit : k.online = pre ++ nid :: post)
    (hpre : ∀ p ∈ pre, k.vzalloc_node dbmem p ≠ 0) (hfail : k.vzalloc_node dbmem nid = 0) :
    released (tempesta_reserve_vmpages k dbmem map).calls =
      pre.map (fun p => k.vzalloc_node dbmem p) := by
  have h1 := reserve_vmpages_fail k dbmem map pre post nid hok hz hsplit hpre hfail
  rw [h1.2.2, released_append, released_append, released_map_vzalloc, released_map_vfree]
  rfl

/-- After `tempesta_reserve_pages` the populated count over the online nodes
is 0 or their number. -/
theorem reserve_pages_populated (k : Kernel) (dbmem : Nat) (map : Table) (hok : k.OnlineOk) :
    populated k.online (tempesta_reserve_pages k dbmem map).map = 0 ∨
    populated k.online (tempesta_reserve_pages k dbmem map).map = k.online.length := by
  rcases first_failure (k.memblock_alloc_try_nid_raw dbmem HPAGE_SIZE) k.online with
    hall | ⟨pre, nid, post, e, hp, hf⟩
  · right
    apply populated_eq_length
    rw [(reserve_pages_all k dbmem map hall).1]
    intro nid hn
    simpa [filled, hn] using hall nid hn
  · left
    apply populated_eq_zero
    apply tableZero_online k _ hok
    rw [(reserve_pages_fail k dbmem map pre post nid e hp hf).1]
    exact memset_map_zero _ _

/-! ## The consistency check, the fallback rollback and the release order -/

/-- C15: `tempesta_reserve_vmpages` stops at `BUG_ON` exactly for the tables
whose number of populated online entries is strictly between 0 and the online
node count; when it does, no allocator call has been made and the table is as
it was; for a count of 0 or of the node count it does not stop there. -/
theorem reserve_vmpages_bug_on (k : Kernel) (dbmem : Nat) (map : Table) :
    ((tempesta_reserve_vmpages k dbmem map).bug = true ↔
      (0 < populated k.online map ∧ populated k.online map < k.online.length)) ∧
    ((tempesta_reserve_vmpages k dbmem map).bug = true →
      (tempesta_reserve_vmpages k dbmem map).calls = [] ∧
      ∀ i : Int, (tempesta_reserve_vmpages k dbmem map).map i = map i) ∧
    ((populated k.online map = 0 ∨ populated k.online map = k.online.length) →
      (tempesta_reserve_vmpages k dbmem map).bug = false) := by
  have h := reserve_vmpages_bug k dbmem map
  refine ⟨h.1, fun hb => ⟨(h.2 hb).1, fun i => by rw [(h.2 hb).2]⟩, fun hc => ?_⟩
  cases hb : (tempesta_reserve_vmpages k dbmem map).bug
  · rfl
  · have := h.1.1 hb
    omega

theorem reserve_vmpages_bug_on_witness :
    (tempesta_reserve_vmpages sampleKernel DEFAULT_MEMSZ partialTable).bug = true ∧
    (tempesta_reserve_vmpages sampleKernel DEFAULT_MEMSZ partialTable).calls = [] ∧
    ∀ i : Int, (tempesta_reserve_vmpages sampleKernel DEFAULT_MEMSZ partialTable).map i
      = partialTable i :=
  have hb := (reserve_vmpages_bug_on sampleKernel DEFAULT_MEMSZ partialTable).1.2
    ⟨by decide, by decide⟩
  ⟨hb, ((reserve_vmpages_bug_on sampleKernel DEFAULT_MEMSZ partialTable).2.1 hb).1,
    ((reserve_vmpages_bug_on sampleKernel DEFAULT_MEMSZ partialTable).2.1 hb).2⟩

/-- C19: in the boot sequence, `tempesta_reserve_pages` then
`tempesta_reserve_vmpages`, the check `BUG_ON(maps && maps < nr_online_nodes)`
does not fire, whatever the allocators return and whatever table the sequence
starts from (the empty one in particular). -/
theorem boot_never_bugs (k : Kernel) (dbmem : Nat) (map : Table) (hok : k.OnlineOk) :
    (tempesta_reserve_vmpages k dbmem (tempesta_reserve_pages k dbmem map).map).bug = false := by
  have h := (reserve_vmpages_bug k dbmem (tempesta_reserve_pages k dbmem map).map).1
  have hp := reserve_pages_populated k dbmem map hok
  cases hb : (tempesta_reserve_vmpages k dbmem (tempesta_reserve_pages k dbmem map).map).bug
  · rfl
  · have := h.1 hb
    omega

theorem boot_never_bugs_witness :
    (tempesta_reserve_vmpages sampleKernel DEFAULT_MEMSZ
      (tempesta_reserve_pages sampleKernel DEFAULT_MEMSZ zeroTable).map).bug = false :=
  boot_never_bugs sampleKernel DEFAULT_MEMSZ zeroTable ⟨by decide, by decide⟩

/-- C18: if `tempesta_reserve_vmpages` is entered with an empty table and
`vzalloc_node` first fails at the online node `nid`, after the online nodes
`pre`, then its allocator calls are: one `vzalloc_node` for each node of `pre`
and one for `nid` (none for a later node), then one `vfree` for each address
the successful calls returned and for no other address; it returns, and
afterwards every entry of the table is zero. -/
theorem reserve_vmpages_rollback (k : Kernel) (dbmem : Nat) (map : Table) (pre post : List Int)
    (nid : Int) (hok : k.OnlineOk) (hz : TableZero k.MAX_NUMNODES map)
    (hsplit : k.online = pre ++ nid :: post)
    (hpre : ∀ p ∈ pre, k.vzalloc_node dbmem p ≠ 0) (hfail : k.vzalloc_node dbmem nid = 0) :
    (tempesta_reserve_vmpages k dbmem map).bug = false ∧
    (tempesta_reserve_vmpages k dbmem map).calls =
      (pre.map (fun p => Call.vzalloc_node dbmem p) ++ [Call.vzalloc_node dbmem nid]) ++
      pre.map (fun p => Call.vfree (k.vzalloc_node dbmem p)) ∧
    TableZero k.MAX_NUMNODES (tempesta_reserve_vmpages k dbmem map).map := by
  have h := reserve_vmpages_fail k dbmem map pre post nid hok hz hsplit hpre hfail
  exact ⟨h.1, h.2.2, h.2.1⟩

theorem reserve_vmpages_rollback_witness :
    (tempesta_reserve_vmpages sampleKernel DEFAULT_MEMSZ zeroTable).bug = false ∧
    (tempesta_reserve_vmpages sampleKernel DEFAULT_MEMSZ zeroTable).calls =
      (([0, 1, 2] : List Int).map (fun p => Call.vzalloc_node DEFAULT_MEMSZ p) ++
        [Call.vzalloc_node DEFAULT_MEMSZ 3]) ++
      ([0, 1, 2] : List Int).map
        (fun p => Call.vfree (sampleKernel.vzalloc_node DEFAULT_MEMSZ p)) ∧
    TableZero sampleKernel.MAX_NUMNODES
      (tempesta_reserve_vmpages sampleKernel DEFAULT_MEMSZ zeroTable).map :=
  reserve_vmpages_rollback sampleKernel DEFAULT_MEMSZ zeroTable [0, 1, 2] [] 3
    ⟨by decide, by decide⟩ (fun _ _ _ => rfl) rfl (by decide) rfl

/-- C17 (counterexample): on the sample machine the physical pass acquires
the region of node 0 and then that of node 1 before failing at node 2, and
releases node 0's region first; the fallback pass acquires the regions of
nodes 0, 1, 2 before failing at node 3, and frees node 0's region first.  In
neither pass is the release order the reverse of the acquisition order. -/
theorem rollback_not_reversed :
    ([0, 1] : List Int).map
        (fun p => sampleKernel.memblock_alloc_try_nid_raw DEFAULT_MEMSZ HPAGE_SIZE p)
      = [0x40000000, 0x80000000] ∧
    released (tempesta_reserve_pages sampleKernel DEFAULT_MEMSZ zeroTable).calls
      = [0x40000000, 0x80000000] ∧
    released (tempesta_reserve_pages sampleKernel DEFAULT_MEMSZ zeroTable).calls
      ≠ [0x40000000, 0x80000000].reverse ∧
    ([0, 1, 2] : List Int).map (fun p => sampleKernel.vzalloc_node DEFAULT_MEMSZ p)
      = [0x80000000, 0x100000000, 0x180000000] ∧
    released (tempesta_reserve_vmpages sampleKernel DEFAULT_MEMSZ zeroTable).calls
      = [0x80000000, 0x100000000, 0x180000000] ∧
    released (tempesta_reserve_vmpages sampleKernel DEFAULT_MEMSZ zeroTable).calls
      ≠ [0x80000000, 0x100000000, 0x180000000].reverse := by
  have hok : sampleKernel.OnlineOk := ⟨by decide, by decide⟩
  have hz : TableZero sampleKernel.MAX_NUMNODES zeroTable := fun _ _ _ => rfl
  have h1 := reserve_pages_released sampleKernel DEFAULT_MEMSZ zeroTable [0, 1] [3] 2
    hok hz rfl (by decide) rfl
  have h2 := reserve_vmpages_released sampleKernel DEFAULT_MEMSZ zeroTable [0, 1, 2] [] 3
    hok hz rfl (by decide) rfl
  have e1 : ([0, 1] : List Int).map
      (fun p => sampleKernel.virt_to_phys
        (sampleKernel.memblock_alloc_try_nid_raw DEFAULT_MEMSZ HPAGE_SIZE p))
      = [0x40000000, 0x80000000] := by decide
  have e2 : ([0, 1, 2] : List Int).map (fun p => sampleKernel.vzalloc_node DEFAULT_MEMSZ p)
      = [0x80000000, 0x100000000, 0x180000000] := by decide
  rw [h1, h2, e1, e2]
  exact ⟨by decide, rfl, by decide, rfl, rfl, by decide⟩

/-- C17 (amended): in each rollback path, when the pass, entered with an empty
table, fails after acquiring regions for the nodes `pre`, the regions are
released in the order of their acquisition, that of increasing node id: the
region acquired first is released first.  The two passes are taken one by one:
either may fail without the other. -/
theorem rollback_in_acquisition_order (k : Kernel) (dbmem : Nat) (map : Table)
    (hok : k.OnlineOk) (hz : TableZero k.MAX_NUMNODES map) :
    (∀ (pre post : List Int) (nid : Int), k.online = pre ++ nid :: post →
      (∀ p ∈ pre, k.memblock_alloc_try_nid_raw dbmem HPAGE_SIZE p ≠ 0) →
      k.memblock_alloc_try_nid_raw dbmem HPAGE_SIZE nid = 0 →
      released (tempesta_reserve_pages k dbmem map).calls =
        pre.map (fun p => k.virt_to_phys (k.memblock_alloc_try_nid_raw dbmem HPAGE_SIZE p))) ∧
    (∀ (pre post : List Int) (nid : Int), k.online = pre ++ nid :: post →
      (∀ p ∈ pre, k.vzalloc_node dbmem p ≠ 0) →
      k.vzalloc_node dbmem nid = 0 →
      released (tempesta_reserve_vmpages k dbmem map).calls =
        pre.map (fun p => k.vzalloc_node dbmem p)) :=
  ⟨fun pre post nid hsplit hpre hfail =>
      reserve_pages_released k dbmem map pre post nid hok hz hsplit hpre hfail,
    fun pre post nid hsplit hpre hfail =>
      reserve_vmpages_released k dbmem map pre post nid hok hz hsplit hpre hfail⟩

theorem rollback_in_acquisition_order_witness :
    released (tempesta_reserve_pages fallbackKernel DEFAULT_MEMSZ zeroTable).calls =
      ([0, 1] : List Int).map (fun p => fallbackKernel.virt_to_phys
        (fallbackKernel.memblock_alloc_try_nid_raw DEFAULT_MEMSZ HPAGE_SIZE p)) ∧
    released (tempesta_reserve_vmpages sampleKernel DEFAULT_MEMSZ zeroTable).calls =
      ([0, 1, 2] : List Int).map (fun p => sampleKernel.vzalloc_node DEFAULT_MEMSZ p) :=
  ⟨(rollback_in_acquisition_order fallbackKernel DEFAULT_MEMSZ zeroTable
      ⟨by decide, by decide⟩ (fun _ _ _ => rfl)).1 [0, 1] [3] 2 rfl (by decide) rfl,
    (rollback_in_acquisition_order sampleKernel DEFAULT_MEMSZ zeroTable
      ⟨by decide, by decide⟩ (fun _ _ _ => rfl)).2 [0, 1, 2] [] 3 rfl (by decide) rfl⟩

/-! ## The four-node scenario -/

theorem setup_pages_2G :
    (tempesta_setup_pages 4 2147483648).dbmem = 536870912 ∧
    (tempesta_setup_pages 4 2147483648).log = [] := by
  rw [setup_pages_dbmem, setup_pages_log,
    round_up_no_wrap (2147483648 / 4) (by decide) (by rw [HPAGE_SIZE_eq, ULONG_MOD_eq]; decide),
    MIN_MEMSZ_eq, MAX_MEMSZ_eq, HPAGE_SIZE_eq]
  decide

/-- C14: with the online nodes 0, 1, 2, 3 and a parsed total of 2G,
`tempesta_setup_pages` yields `dbmem = 536870912` with no diagnostic; and when
the reservation of that size succeeds for every node, each of the four entries
is populated and `tempesta_get_mapping` succeeds for each of the nodes with
`pages = 131072`; the fallback pass then changes nothing. -/
theorem scenario_2G (k : Kernel) (map : Table) (honline : k.online = [0, 1, 2, 3])
    (hall : ∀ nid ∈ k.online,
      k.memblock_alloc_try_nid_raw (tempesta_setup_pages 4 2147483648).dbmem HPAGE_SIZE nid
        ≠ 0) :
    (tempesta_setup_pages k.online.length 2147483648).dbmem = 536870912 ∧
    (tempesta_setup_pages k.online.length 2147483648).log = [] ∧
    (∀ nid ∈ ([0, 1, 2, 3] : List Int), ∀ tm : Option Int,
      ((tempesta_reserve_pages k (tempesta_setup_pages 4 2147483648).dbmem map).map nid).addr
        ≠ 0 ∧
      (tempesta_get_mapping
        (tempesta_reserve_pages k (tempesta_setup_pages 4 2147483648).dbmem map).map
        nid tm).ret = 0 ∧
      (tempesta_get_mapping
        (tempesta_reserve_pages k (tempesta_setup_pages 4 2147483648).dbmem map).map
        nid tm).tm = some nid ∧
      ((tempesta_reserve_pages k (tempesta_setup_pages 4 2147483648).dbmem map).map nid).pages
        = 131072) ∧
    (tempesta_reserve_vmpages k (tempesta_setup_pages 4 2147483648).dbmem
      (tempesta_reserve_pages k (tempesta_setup_pages 4 2147483648).dbmem map).map).map =
      (tempesta_reserve_pages k (tempesta_setup_pages 4 2147483648).dbmem map).map := by
  obtain ⟨hd, hl⟩ := setup_pages_2G
  have hlen : k.online.length = 4 := by rw [honline]; rfl
  rw [hlen]
  refine ⟨hd, hl, ?_⟩
  rw [hd] at hall ⊢
  have h1 := (reserve_pages_all k 536870912 map hall).1
  have hm : ∀ nid ∈ k.online, (tempesta_reserve_pages k 536870912 map).map nid =
      ⟨k.memblock_alloc_try_nid_raw 536870912 HPAGE_SIZE nid, 536870912 / PAGE_SIZE⟩ := by
    intro nid hn
    rw [h1]
    simp [filled, hn]
  have hfull : ∀ nid ∈ k.online,
      ((tempesta_reserve_pages k 536870912 map).map nid).addr ≠ 0 := by
    intro nid hn
    rw [hm nid hn]
    exact hall nid hn
  refine ⟨?_, (reserve_vmpages_full k 536870912 _ hfull).2.1⟩
  intro nid hn tm
  have hn2 : nid ∈ k.online := by rw [honline]; exact hn
  have hg := get_mapping_populated _ nid tm (hfull nid hn2)
  refine ⟨hfull nid hn2, hg.1, hg.2.1, ?_⟩
  rw [hm nid hn2]
  show 536870912 / PAGE_SIZE = 131072
  rw [PAGE_SIZE_eq]

theorem scenario_2G_witness :
    (tempesta_setup_pages goodKernel.online.length 2147483648).dbmem = 536870912 ∧
    (tempesta_setup_pages goodKernel.online.length 2147483648).log = [] ∧
    (∀ nid ∈ ([0, 1, 2, 3] : List Int), ∀ tm : Option Int,
      ((tempesta_reserve_pages goodKernel (tempesta_setup_pages 4 2147483648).dbmem
        zeroTable).map nid).addr ≠ 0 ∧
      (tempesta_get_mapping
        (tempesta_reserve_pages goodKernel (tempesta_setup_pages 4 2147483648).dbmem
          zeroTable).map nid tm).ret = 0 ∧
      (tempesta_get_mapping
        (tempesta_reserve_pages goodKernel (tempesta_setup_pages 4 2147483648).dbmem
          zeroTable).map nid tm).tm = some nid ∧
      ((tempesta_reserve_pages goodKernel (tempesta_setup_pages 4 2147483648).dbmem
        zeroTable).map nid).pages = 131072) ∧
    (tempesta_reserve_vmpages goodKernel (tempesta_setup_pages 4 2147483648).dbmem
      (tempesta_reserve_pages goodKernel (tempesta_setup_pages 4 2147483648).dbmem
        zeroTable).map).map =
      (tempesta_reserve_pages goodKernel (tempesta_setup_pages 4 2147483648).dbmem
        zeroTable).map :=
  scenario_2G goodKernel zeroTable rfl (by decide)

/-! ## Lookups outside the table after both passes failed -/

/-- The table `tempesta_reserve_vmpages` leaves, entered with an empty table,
when `vzalloc_node` first fails at `nid`, after the online nodes `pre`: the
`memset` clears the array and nothing outside it. -/
theorem reserve_vmpages_fail_map (k : Kernel) (dbmem : Nat) (map : Table) (pre post : List Int)
    (nid : Int) (hok : k.OnlineOk) (hz : TableZero k.MAX_NUMNODES map)
    (hsplit : k.online = pre ++ nid :: post)
    (hpre : ∀ p ∈ pre, k.vzalloc_node dbmem p ≠ 0) (hfail : k.vzalloc_node dbmem nid = 0) :
    (tempesta_reserve_vmpages k dbmem map).map =
      memset_map k.MAX_NUMNODES
        (set_addr (filled (k.vzalloc_node dbmem) (dbmem / PAGE_SIZE) pre map) nid 0) := by
  have hzo := tableZero_online k map hok hz
  have hne : k.online ≠ [] := by rw [hsplit]; simp
  have h3 := vzalloc_loop_fail k.vzalloc_node dbmem pre post nid map hpre hfail
  rw [← hsplit] at h3
  rw [reserve_vmpages_empty k dbmem map hzo hne]
  simp only [h3.1, h3.2.1]

/-- C5 (counterexample): on the sample machine both passes fail; started on a
table whose 64 entries are all zero, with a non-zero word in the storage just
before the array, the table ends with every entry zero, and yet
`tempesta_get_mapping(-1)` does not return `-ENOMEM`: it returns 0. -/
theorem both_passes_fail_lookup_outside :
    TableZero sampleKernel.MAX_NUMNODES strayTable ∧
    (∃ nid ∈ sampleKernel.online,
      sampleKernel.memblock_alloc_try_nid_raw DEFAULT_MEMSZ HPAGE_SIZE nid = 0) ∧
    (∃ nid ∈ sampleKernel.online, sampleKernel.vzalloc_node DEFAULT_MEMSZ nid = 0) ∧
    TableZero sampleKernel.MAX_NUMNODES
      (tempesta_reserve_vmpages sampleKernel DEFAULT_MEMSZ
        (tempesta_reserve_pages sampleKernel DEFAULT_MEMSZ strayTable).map).map ∧
    (tempesta_get_mapping
      (tempesta_reserve_vmpages sampleKernel DEFAULT_MEMSZ
        (tempesta_reserve_pages sampleKernel DEFAULT_MEMSZ strayTable).map).map
      (-1) none).ret = 0 ∧
    (tempesta_get_mapping
      (tempesta_reserve_vmpages sampleKernel DEFAULT_MEMSZ
        (tempesta_reserve_pages sampleKernel DEFAULT_MEMSZ strayTable).map).map
      (-1) none).ret ≠ -ENOMEM := by
  have hok : sampleKernel.OnlineOk := ⟨by decide, by decide⟩
  have hs : TableZero sampleKernel.MAX_NUMNODES strayTable := by
    intro i h0 _
    have : i ≠ -1 := by omega
    simp [strayTable, this]
  have hM1 := (reserve_pages_fail sampleKernel DEFAULT_MEMSZ strayTable [0, 1] [3] 2 rfl
    (by decide) rfl).1
  have hz1 : TableZero sampleKernel.MAX_NUMNODES
      (tempesta_reserve_pages sampleKernel DEFAULT_MEMSZ strayTable).map := by
    rw [hM1]; exact memset_map_zero _ _
  have hF := reserve_vmpages_fail_map sampleKernel DEFAULT_MEMSZ
    (tempesta_reserve_pages sampleKernel DEFAULT_MEMSZ strayTable).map [0, 1, 2] [] 3
    hok hz1 rfl (by decide) rfl
  have hT := (reserve_vmpages_fail sampleKernel DEFAULT_MEMSZ
    (tempesta_reserve_pages sampleKernel DEFAULT_MEMSZ strayTable).map [0, 1, 2] [] 3
    hok hz1 rfl (by decide) rfl).2.1
  have haddr : ((tempesta_reserve_vmpages sampleKernel DEFAULT_MEMSZ
      (tempesta_reserve_pages sampleKernel DEFAULT_MEMSZ strayTable).map).map (-1)).addr
      ≠ 0 := by
    rw [hF, hM1]
    decide
  have hg := (get_mapping_populated _ (-1) none haddr).1
  refine ⟨hs, ⟨2, by decide, rfl⟩, ⟨3, by decide, rfl⟩, hT, hg, ?_⟩
  rw [hg]
  exact fun h => neg_ENOMEM_ne_zero h.symm

end Tempesta
